import Mathlib

/-!
The command `baseline participants invite` of provide-cli.

A shallow embedding of `cmd/baseline/participants/participants_invite.go`
(`inviteParticipant`, `vendJWT`, `encodeJWTNatsClaims`) together with the library
routines it calls (`encoding/hex`, `encoding/base64`, `strings`, `encoding/json`,
`jwt-go`'s `SigningString`), followed by theorems about the invitation pipeline.

Go strings are modelled as `String`, byte slices as `List Byte`, Go maps with string
keys as association lists with unique keys, and the remote services as functions of
the arguments they are called with.
-/

namespace ProvideCli

/-! ## Bytes and text -/

/-- A Go `byte`. -/
abbrev Byte := Fin 256

/-- Truncating conversion to a byte, Go's `byte(n)`. -/
def byte (n : Nat) : Byte := ⟨n % 256, Nat.mod_lt n (by decide)⟩

/-- UTF-8 encoding of one code point: the bytes a Go string holds for it. -/
def utf8EncodeChar (c : Char) : List Byte :=
  let n := c.toNat
  if n < 128 then [byte n]
  else if n < 2048 then [byte (192 + n / 64), byte (128 + n % 64)]
  else if n < 65536 then [byte (224 + n / 4096), byte (128 + n / 64 % 64), byte (128 + n % 64)]
  else [byte (240 + n / 262144), byte (128 + n / 4096 % 64), byte (128 + n / 64 % 64),
        byte (128 + n % 64)]

/-- The conversion `[]byte(s)`. -/
def toBytes (s : String) : List Byte := s.data.flatMap utf8EncodeChar

/-! ## `encoding/hex` -/

/-- The table `hextable` of `encoding/hex`. -/
def hextable : List Char := "0123456789abcdef".data

/-- Entry `hextable[n]`. -/
def hexDigit (n : Nat) : Char := hextable.getD n '0'

/-- Character-level body of `hex.EncodeToString`: two digits per byte, `v>>4` then `v&0x0f`. -/
def hexEncode : List Byte → List Char
  | [] => []
  | b :: bs => hexDigit (b.val / 16) :: hexDigit (b.val % 16) :: hexEncode bs

/-- The call `hex.EncodeToString(src)`. -/
def hexEncodeToString (src : List Byte) : String := ⟨hexEncode src⟩

/-- The helper `fromHexChar` of `encoding/hex`. -/
def fromHexChar (c : Char) : Option Nat :=
  let n := c.toNat
  if 48 ≤ n ∧ n ≤ 57 then some (n - 48)
  else if 97 ≤ n ∧ n ≤ 102 then some (n - 97 + 10)
  else if 65 ≤ n ∧ n ≤ 70 then some (n - 65 + 10)
  else none

/-- Character-level body of `hex.DecodeString`: `none` stands for `InvalidByteError` or
`ErrLength`. -/
def hexDecode : List Char → Option (List Byte)
  | [] => some []
  | [_] => none
  | c :: d :: rest =>
    match fromHexChar c, fromHexChar d, hexDecode rest with
    | some a, some b, some bs => some (byte (a * 16 + b) :: bs)
    | _, _, _ => none

/-- The call `hex.DecodeString(s)`; `none` when it returns an error. -/
def hexDecodeString (s : String) : Option (List Byte) := hexDecode s.data

/-! ## `encoding/base64` and `strings` -/

/-- The alphabet `encodeURL` of `encoding/base64`. -/
def encodeURL : List Char :=
  "ABCDEFGHIJKLMNOPQRSTUVWXYZabcdefghijklmnopqrstuvwxyz0123456789-_".data

/-- Entry `enc.encode[n]` of `base64.URLEncoding`. -/
def urlChar (n : Nat) : Char := encodeURL.getD n 'A'

/-- Character-level body of `base64.URLEncoding.EncodeToString`: whole 3-byte groups
become four characters of `val>>18&0x3F`, `val>>12&0x3F`, `val>>6&0x3F`, `val&0x3F`, and a
remainder of one or two bytes is padded with `=`. -/
def base64URLEncode : List Byte → List Char
  | [] => []
  | [a] =>
    let val := a.val * 65536
    [urlChar (val / 262144 % 64), urlChar (val / 4096 % 64), '=', '=']
  | [a, b] =>
    let val := a.val * 65536 + b.val * 256
    [urlChar (val / 262144 % 64), urlChar (val / 4096 % 64), urlChar (val / 64 % 64), '=']
  | a :: b :: c :: rest =>
    let val := a.val * 65536 + b.val * 256 + c.val
    urlChar (val / 262144 % 64) :: urlChar (val / 4096 % 64) :: urlChar (val / 64 % 64) ::
      urlChar (val % 64) :: base64URLEncode rest

/-- Character-level body of `strings.TrimRight(s, cutset)`. -/
def trimRight (s cutset : List Char) : List Char :=
  (s.reverse.dropWhile fun c => decide (c ∈ cutset)).reverse

/-- Character-level body of `strings.Join(elems, sep)`. -/
def joinChars (sep : List Char) : List (List Char) → List Char
  | [] => []
  | [a] => a
  | a :: b :: rest => a ++ sep ++ joinChars sep (b :: rest)

/-- The call `strings.Join(elems, sep)`. -/
def stringsJoin (elems : List String) (sep : String) : String :=
  ⟨joinChars sep.data (elems.map String.data)⟩

/-- The call `strings.HasPrefix(s, p)`. -/
def hasPrefix (s p : String) : Bool := p.data.isPrefixOf s.data

/-- The helper `EncodeSegment` of jwt-go:
`strings.TrimRight(base64.URLEncoding.EncodeToString(seg), "=")`. -/
def encodeSegment (seg : List Byte) : String := ⟨trimRight (base64URLEncode seg) "=".data⟩

/-! ## JSON values and `encoding/json` -/

/-- The values an `interface{}` holds in this program, as `json.Marshal` sees them. Numbers
are the integers the program produces (`int64`, `*int`, `*time.Duration`). -/
inductive JSON where
  | null
  | bool (b : Bool)
  | num (n : Int)
  | str (s : String)
  | arr (xs : List JSON)
  | obj (kvs : List (String × JSON))

/-- A Go `map[string]interface{}`: an association list holding each key at most once. -/
abbrev Obj := List (String × JSON)

/-- The assignment `m[k] = v`: replaces the entry for `k`, or adds one. -/
def mapSet : Obj → String → JSON → Obj
  | [], k, v => [(k, v)]
  | (k', v') :: rest, k, v => if k' = k then (k, v) :: rest else (k', v') :: mapSet rest k v

/-- The two-valued lookup `v, ok := m[k]`. -/
def mapGet (m : Obj) (k : String) : Option JSON := m.lookup k

/-- The lookup `m[k]`, which is `nil` for a key that is not there. -/
def mapIndex (m : Obj) (k : String) : JSON := (mapGet m k).getD JSON.null

/-- The keys of a map. -/
def mapKeys (m : Obj) : List String := m.map Prod.fst

/-- A `[]string` as a JSON array of strings. -/
def stringsJSON (xs : List String) : JSON := JSON.arr (xs.map JSON.str)

/-- Bytewise order of two keys, the order in which `json.Marshal` writes a map. -/
def keyLe : List Char → List Char → Bool
  | [], _ => true
  | _ :: _, [] => false
  | a :: as, b :: bs => a.toNat < b.toNat || (a.toNat == b.toNat && keyLe as bs)

/-- Insertion of one rendered member into a list sorted by key. -/
def insertMember (m : String × List Char) : List (String × List Char) → List (String × List Char)
  | [] => [m]
  | n :: rest => if keyLe m.1.data n.1.data then m :: n :: rest else n :: insertMember m rest

/-- Members sorted by key. -/
def sortMembers : List (String × List Char) → List (String × List Char)
  | [] => []
  | m :: rest => insertMember m (sortMembers rest)

/-- One character of a JSON string literal as `json.Marshal` writes it (HTML escaping on). -/
def escapeChar (c : Char) : List Char :=
  let n := c.toNat
  if c = '\\' ∨ c = '"' then ['\\', c]
  else if c = '\n' then ['\\', 'n']
  else if c = '\r' then ['\\', 'r']
  else if c = '\t' then ['\\', 't']
  else if n < 32 ∨ c = '<' ∨ c = '>' ∨ c = '&' then
    ['\\', 'u', '0', '0', hexDigit (n / 16), hexDigit (n % 16)]
  else if n = 8232 ∨ n = 8233 then ['\\', 'u', '2', '0', '2', hexDigit (n % 16)]
  else [c]

/-- A JSON string literal. -/
def quoteString (s : String) : List Char := '"' :: s.data.flatMap escapeChar ++ ['"']

mutual
/-- The text `json.Marshal` writes for a value; the members of a map come out sorted by
key. -/
def marshalText : JSON → List Char
  | .null => "null".data
  | .bool true => "true".data
  | .bool false => "false".data
  | .num n => (toString n).data
  | .str s => quoteString s
  | .arr xs => '[' :: joinChars [','] (marshalElems xs) ++ [']']
  | .obj kvs =>
    '{' :: joinChars [','] ((sortMembers (marshalMembers kvs)).map fun m =>
      quoteString m.1 ++ ':' :: m.2) ++ ['}']
/-- The texts of the elements of an array. -/
def marshalElems : List JSON → List (List Char)
  | [] => []
  | x :: rest => marshalText x :: marshalElems rest
/-- The texts of the members of a map, each with its key. -/
def marshalMembers : List (String × JSON) → List (String × List Char)
  | [] => []
  | (k, v) :: rest => (k, marshalText v) :: marshalMembers rest
end

/-- The call `json.Marshal(v)`. It returns no error on the values of this program:
strings, integers, string slices and maps of them, and values decoded from JSON. -/
def jsonMarshal (v : JSON) : List Byte := (marshalText v).flatMap utf8EncodeChar

/-! ## jwt-go -/

/-- The header `jwt.NewWithClaims(jwt.SigningMethodRS256, claims)` gives a token. -/
def jwtHeader : Obj := [("typ", JSON.str "JWT"), ("alg", JSON.str "RS256")]

/-- The method `(*Token).SigningString`: the header and the claims, each marshalled and
passed to `EncodeSegment`, joined by a dot. Its error is that of `json.Marshal`. -/
def signingString (header claims : Obj) : Except String String :=
  Except.ok (stringsJoin
    [encodeSegment (jsonMarshal (JSON.obj header)), encodeSegment (jsonMarshal (JSON.obj claims))]
    ".")

/-! ## The remote services and the process -/

/-- A vault as listed by `vault.ListVaults`; `id` is the text of `ID.String()`. -/
structure Vault where
  id : String

/-- A key as listed by `vault.ListKeys`; `id` and `vaultID` are the texts of `ID.String()`
and `VaultID.String()`, and `spec` is the pointer `Spec`, which may be nil. -/
structure Key where
  id : String
  vaultID : String
  spec : Option String
  address : String

/-- A contract as listed by `nchain.ListContracts`. -/
structure Contract where
  address : String

/-- The organization returned by `ident.GetOrganizationDetails`. -/
structure Organization where
  metadata : Obj

/-- The response of `vault.SignMessage`; `signature` is the pointer `Signature`. -/
structure SignResponse where
  signature : Option String

/-- What the process does that is visible outside it: the calls to the remote services,
each with its arguments, and the lines written by `log`. -/
inductive Event where
  | listVaults (token : String) (params : Obj)
  | listKeys (token vaultID : String) (params : Obj)
  | listContracts (token : String) (params : Obj)
  | getOrganizationDetails (token organizationID : String) (params : Obj)
  | signMessage (token vaultID keyID message : String) (opts : Obj)
  | createInvitation (token : String) (params : Obj)
  | log (message : String)

/-- How a piece of the program ends: it returns a value, the process ends in `os.Exit`,
or the process ends in a runtime panic. -/
inductive Outcome (α : Type) where
  | returned (a : α)
  | exited (code : Nat)
  | panicked (reason : String)

/-- The access tokens `applicationAccessToken` and `organizationAccessToken`, package
variables written by the authorization helpers. -/
structure Session where
  applicationAccessToken : String
  organizationAccessToken : String

/-- The world outside `participants_invite.go`. A call that returns `(value, error)` and
whose value is read only when the error is nil is an `Except`, with the message of the
error; `nchain.ListContracts` keeps both results, because its error is not read. The
helpers `authorizeApplicationContext` and `authorizeOrganizationContext` are defined in
another file of the package: each either returns, leaving new values in the two token
variables, or ends the process. `now` is `time.Now().Unix()`. -/
structure Env where
  authorizeApplicationContext : Session → Outcome Session
  authorizeOrganizationContext : Session → Outcome Session
  listVaults : String → Obj → Except String (List Vault)
  listKeys : String → String → Obj → Except String (List Key)
  listContracts : String → Obj → List Contract × Option String
  getOrganizationDetails : String → String → Obj → Except String Organization
  signMessage : String → String → String → String → Obj → Except String SignResponse
  createInvitation : String → Obj → Option String
  now : Int

/-- The package variables read by the command: `common.OrganizationID`,
`common.ApplicationID`, `email`, `name`, the key `util.JWTNatsClaimsKey`, and the token
variables as they are when the command starts. -/
structure Globals where
  organizationID : String
  applicationID : String
  email : String
  name : String
  jwtNatsClaimsKey : String
  session : Session

/-- A run of a piece of the program: the events in order, and how it ended. -/
structure Run (α : Type) where
  trace : List Event
  out : Outcome α

/-- Sequencing: the second piece runs only if the first returned. -/
def Run.bind {α β : Type} (r : Run α) (f : α → Run β) : Run β :=
  match r.out with
  | .returned a => ⟨r.trace ++ (f a).trace, (f a).out⟩
  | .exited code => ⟨r.trace, .exited code⟩
  | .panicked reason => ⟨r.trace, .panicked reason⟩

instance : Monad Run where
  pure a := ⟨[], .returned a⟩
  bind := Run.bind

/-- One visible event. -/
def emit (e : Event) : Run Unit := ⟨[e], .returned ()⟩

/-- A call to a remote service: the event, then the reply. -/
def call {α : Type} (e : Event) (reply : α) : Run α := ⟨[e], .returned reply⟩

/-- The calls `log.Print(msg)` and `log.Printf(format, ...)`, with the formatted line. -/
def logPrint (msg : String) : Run Unit := emit (.log msg)

/-- The call `os.Exit(code)`. -/
def osExit {α : Type} (code : Nat) : Run α := ⟨[], .exited code⟩

/-- A helper defined outside this file, seen through how it ends. -/
def helper {α : Type} (o : Outcome α) : Run α := ⟨[], o⟩

/-- The index expression `xs[0]`, which panics on an empty slice. -/
def first {α : Type} : List α → Run α
  | [] => ⟨[], .panicked "runtime error: index out of range [0] with length 0"⟩
  | x :: _ => pure x

/-- The dereference `*p`, which panics on a nil pointer. -/
def deref {α : Type} : Option α → Run α
  | none => ⟨[], .panicked "runtime error: invalid memory address or nil pointer dereference"⟩
  | some a => pure a

/-! ## `participants_invite.go` -/

/-- Lines 187 to 196 of `encodeJWTNatsClaims`, and again lines 198 to 207: the map of a
publish or subscribe policy, nil unless one of the two lists has an entry. A nil map or
pointer is `none`, and `x != nil` is `x.isSome`. -/
def subjectPermissions (allow deny : List String) : Option Obj :=
  if allow.length > 0 ∨ deny.length > 0 then
    let m : Obj := []
    let m := if allow.length > 0 then mapSet m "allow" (stringsJSON allow) else m
    let m := if deny.length > 0 then mapSet m "deny" (stringsJSON deny) else m
    some m
  else none

/-- Lines 209 to 218 of `encodeJWTNatsClaims`: the map of the response policy, nil unless
one of the two values is set. -/
def responsePermissions (responsesMax responsesTTL : Option Int) : Option Obj :=
  if responsesMax.isSome ∨ responsesTTL.isSome then
    let m : Obj := []
    let m := match responsesMax with
      | some n => mapSet m "max" (JSON.num n)
      | none => m
    let m := match responsesTTL with
      | some n => mapSet m "ttl" (JSON.num n)
      | none => m
    some m
  else none

/-- Lines 220 to 232 of `encodeJWTNatsClaims`: the map `permissions`, nil unless one of
the three policy maps is there. -/
def permissionsOf (publishPermissions subscribePermissions responsesPermissions : Option Obj) :
    Option Obj :=
  if publishPermissions.isSome ∨ subscribePermissions.isSome ∨ responsesPermissions.isSome then
    let m : Obj := []
    let m := match publishPermissions with
      | some p => mapSet m "publish" (JSON.obj p)
      | none => m
    let m := match subscribePermissions with
      | some p => mapSet m "subscribe" (JSON.obj p)
      | none => m
    let m := match responsesPermissions with
      | some p => mapSet m "responses" (JSON.obj p)
      | none => m
    some m
  else none

/-- The body of `encodeJWTNatsClaims` from line 187 on, as a function of the six policy
values set above it. -/
def assembleNatsClaims (publishAllow publishDeny subscribeAllow subscribeDeny : List String)
    (responsesMax responsesTTL : Option Int) : Option Obj × Option String :=
  let publishPermissions := subjectPermissions publishAllow publishDeny
  let subscribePermissions := subjectPermissions subscribeAllow subscribeDeny
  let responsesPermissions := responsePermissions responsesMax responsesTTL
  let permissions := permissionsOf publishPermissions subscribePermissions responsesPermissions
  let natsClaims : Option Obj :=
    match permissions with
    | some p => some [("permissions", JSON.obj p)]
    | none => none
  (natsClaims, none)

/-- The function `encodeJWTNatsClaims`: the four lists start empty, `"baseline.>"` is
appended to `publishAllow`, and the two response values stay nil. -/
def encodeJWTNatsClaims : Option Obj × Option String :=
  let publishAllow : List String := []
  let publishDeny : List String := []
  let subscribeAllow : List String := []
  let subscribeDeny : List String := []
  let responsesMax : Option Int := none
  let responsesTTL : Option Int := none
  let publishAllow := publishAllow ++ ["baseline.>"]
  assembleNatsClaims publishAllow publishDeny subscribeAllow subscribeDeny responsesMax
    responsesTTL

/-- The claims map `vendJWT` builds, before the NATS claims are merged in. -/
def baseClaims (g : Globals) (org : Organization) (issuedAt : Int) (params : Obj) : Obj :=
  [("aud", mapIndex org.metadata "messaging_endpoint"),
   ("iat", JSON.num issuedAt),
   ("iss", JSON.str ("organization:" ++ g.organizationID)),
   ("sub", JSON.str g.email),
   ("baseline", JSON.obj params)]

/-- Lines 134 to 136 of `vendJWT`: the NATS claims, unless nil, are stored in the claims
map under `util.JWTNatsClaimsKey`. -/
def mergeNatsClaims (g : Globals) (claims : Obj) (natsClaims : Option Obj) : Obj :=
  match natsClaims with
  | some n => mapSet claims g.jwtNatsClaimsKey (JSON.obj n)
  | none => claims

/-- Lines 147 to 150 of `vendJWT`: the options of the signing request. -/
def signOptions (spec : String) : Obj :=
  let opts : Obj := []
  if hasPrefix spec "RSA-" then mapSet opts "algorithm" (JSON.str "RS256") else opts

/-- The function `vendJWT`. The map `params` is marshalled inside the call, by
`SigningString`, so the token holds the entries `params` has when `vendJWT` is called.
The line logged when the signature does not decode from hex is kept up to the text of the
decoding error, which `hexDecodeString` does not carry. -/
def vendJWT (env : Env) (g : Globals) (s : Session) (vaultID : String) (params : Obj) :
    Run String := do
  let listed ← call (.listKeys s.organizationAccessToken vaultID [("spec", JSON.str "RSA-4096")])
    (env.listKeys s.organizationAccessToken vaultID [("spec", JSON.str "RSA-4096")])
  let keys ← match listed with
    | .error err => do
      logPrint ("failed to resolve RSA-4096 key for organization; " ++ err)
      osExit 1
    | .ok keys => pure keys
  if keys.length = 0 then
    logPrint "failed to resolve RSA-4096 key for organization"
    osExit 1
  let key ← first keys
  let details ← call (.getOrganizationDetails s.organizationAccessToken g.organizationID [])
    (env.getOrganizationDetails s.organizationAccessToken g.organizationID [])
  let org ← match details with
    | .error err => do
      logPrint ("failed to vend JWT; " ++ err)
      osExit 1
    | .ok org => pure org
  let issuedAt := env.now
  let claims := baseClaims g org issuedAt params
  let natsClaims ← match encodeJWTNatsClaims with
    | (_, some err) => do
      logPrint ("failed to encode NATS claims in JWT; " ++ err)
      osExit 1
    | (natsClaims, none) => pure natsClaims
  let claims := mergeNatsClaims g claims natsClaims
  let strToSign ← match signingString jwtHeader claims with
    | .error err => do
      logPrint ("failed to generate JWT string for signing; " ++ err)
      osExit 1
    | .ok str => pure str
  let spec ← deref key.spec
  let opts := signOptions spec
  let signed ← call
    (.signMessage s.organizationAccessToken key.vaultID key.id
      (hexEncodeToString (toBytes strToSign)) opts)
    (env.signMessage s.organizationAccessToken key.vaultID key.id
      (hexEncodeToString (toBytes strToSign)) opts)
  let resp ← match signed with
    | .error err => do
      logPrint ("WARNING: failed to sign JWT using vault key: " ++ key.id ++ "; " ++ err)
      osExit 1
    | .ok resp => pure resp
  let signature ← deref resp.signature
  let sigAsBytes ← match hexDecodeString signature with
    | none => do
      logPrint "failed to decode signature from hex; "
      osExit 1
    | some bytes => pure bytes
  let encodedSignature := encodeSegment sigAsBytes
  return stringsJoin [strToSign, encodedSignature] "."

/-- The payload `inviteParticipant` hands to `ident.CreateInvitation`. -/
def invitationPayload (g : Globals) (params : Obj) : Obj :=
  [("application_id", JSON.str g.applicationID),
   ("email", JSON.str g.email),
   ("params", JSON.obj params)]

/-- The function `inviteParticipant`. The error of `nchain.ListContracts` is dropped
(`contracts, _ :=`), and the test that follows reads `err` as `vault.ListKeys` left it,
which is nil at that point. -/
def inviteParticipant (env : Env) (g : Globals) : Run Unit := do
  let s ← helper (env.authorizeApplicationContext g.session)
  let s ← helper (env.authorizeOrganizationContext s)
  let listedVaults ← call
    (.listVaults s.organizationAccessToken [("organization_id", JSON.str g.organizationID)])
    (env.listVaults s.organizationAccessToken [("organization_id", JSON.str g.organizationID)])
  let vaults ← match listedVaults with
    | .error err => do
      logPrint ("failed to resolve vault for organization; " ++ err)
      osExit 1
    | .ok vaults => pure vaults
  let vault0 ← first vaults
  let listedKeys ← call
    (.listKeys s.organizationAccessToken vault0.id [("spec", JSON.str "secp256k1")])
    (env.listKeys s.organizationAccessToken vault0.id [("spec", JSON.str "secp256k1")])
  let keys ← match listedKeys with
    | .error err => do
      logPrint ("failed to resolve secp256k1 key for organization; " ++ err)
      osExit 1
    | .ok keys => pure keys
  let err : Option String := none
  let listedContracts ← call
    (.listContracts s.applicationAccessToken [("type", JSON.str "organization-registry")])
    (env.listContracts s.applicationAccessToken [("type", JSON.str "organization-registry")])
  let contracts := listedContracts.1
  match err with
    | some err => do
      logPrint ("failed to resolve contract for organization; " ++ err)
      osExit 1
    | none => pure ()
  let key0 ← first keys
  let invitorAddress := key0.address
  let contract0 ← first contracts
  let registryContractAddress := contract0.address
  let params : Obj :=
    [("invitor_organization_address", JSON.str invitorAddress),
     ("registry_contract_address", JSON.str registryContractAddress),
     ("workgroup_id", JSON.str g.applicationID)]
  let vault0 ← first vaults
  let authorizedBearerToken ← vendJWT env g s vault0.id params
  let params := mapSet params "authorized_bearer_token" (JSON.str authorizedBearerToken)
  let params :=
    if g.organizationID ≠ "" then mapSet params "organization_id" (JSON.str g.organizationID)
    else params
  let params := if g.name ≠ "" then mapSet params "organization_name" (JSON.str g.name) else params
  let sent ← call (.createInvitation s.applicationAccessToken (invitationPayload g params))
    (env.createInvitation s.applicationAccessToken (invitationPayload g params))
  match sent with
    | some err => do
      logPrint ("failed to invite baseline workgroup participants; " ++ err)
      osExit 1
    | none => pure ()
  logPrint ("invited baseline workgroup participant: " ++ g.email ++ "\n\n\t" ++
    authorizedBearerToken)

/-! ## Notions the properties are stated with -/

/-- The claims map a run of `vendJWT` hands to `jwt.NewWithClaims`, for the organization
`org` returned by the lookup and the time `issuedAt`. -/
def jwtClaims (g : Globals) (org : Organization) (issuedAt : Int) (params : Obj) : Obj :=
  mergeNatsClaims g (baseClaims g org issuedAt params) encodeJWTNatsClaims.1

/-- The string `strToSign` of such a run. -/
def signingInput (g : Globals) (org : Organization) (issuedAt : Int) (params : Obj) : String :=
  stringsJoin
    [encodeSegment (jsonMarshal (JSON.obj jwtHeader)),
     encodeSegment (jsonMarshal (JSON.obj (jwtClaims g org issuedAt params)))]
    "."

/-- The map `params` as `inviteParticipant` hands it to `vendJWT`. -/
def baselineParams (g : Globals) (key : Key) (contract : Contract) : Obj :=
  [("invitor_organization_address", JSON.str key.address),
   ("registry_contract_address", JSON.str contract.address),
   ("workgroup_id", JSON.str g.applicationID)]

/-- The map `params` as `inviteParticipant` hands it to `ident.CreateInvitation`. -/
def invitationParams (g : Globals) (key : Key) (contract : Contract) (token : String) : Obj :=
  let params := mapSet (baselineParams g key contract) "authorized_bearer_token" (JSON.str token)
  let params :=
    if g.organizationID ≠ "" then mapSet params "organization_id" (JSON.str g.organizationID)
    else params
  if g.name ≠ "" then mapSet params "organization_name" (JSON.str g.name) else params

/-- The request `vault.ListKeys` receives for a key of the given spec. -/
def keySpecFilter (spec : String) : Obj := [("spec", JSON.str spec)]

/-- The request `vault.ListVaults` receives. -/
def vaultsRequest (g : Globals) : Obj := [("organization_id", JSON.str g.organizationID)]

/-- The request `nchain.ListContracts` receives. -/
def contractsRequest : Obj := [("type", JSON.str "organization-registry")]

/-- The first three events of a run of `inviteParticipant` that gets past its listings:
the vaults, the secp256k1 keys of the first vault, the registry contracts. -/
def listingEvents (g : Globals) (s : Session) (vault : Vault) : List Event :=
  [.listVaults s.organizationAccessToken (vaultsRequest g),
   .listKeys s.organizationAccessToken vault.id (keySpecFilter "secp256k1"),
   .listContracts s.applicationAccessToken contractsRequest]

/-- The line `inviteParticipant` logs when the invitation has gone out. -/
def invitedLine (g : Globals) (token : String) : String :=
  "invited baseline workgroup participant: " ++ g.email ++ "\n\n\t" ++ token

/-- Whether an event is a call of `ident.GetOrganizationDetails`. -/
def Event.isGetOrganizationDetails : Event → Bool
  | .getOrganizationDetails _ _ _ => true
  | _ => false

/-- Whether an event is a call of `vault.SignMessage`. -/
def Event.isSignMessage : Event → Bool
  | .signMessage _ _ _ _ _ => true
  | _ => false

/-- Whether an event is a call of `ident.CreateInvitation`. -/
def Event.isCreateInvitation : Event → Bool
  | .createInvitation _ _ => true
  | _ => false

/-- Whether an event is a line written by `log`. -/
def Event.isLog : Event → Bool
  | .log _ => true
  | _ => false

/-- Whether a run came back to its caller. -/
def Outcome.isReturned {α : Type} : Outcome α → Bool
  | .returned _ => true
  | _ => false

/-- No array and no map inside a value is empty. -/
def noEmptyContainer : JSON → Bool
  | .arr [] => false
  | .obj [] => false
  | .arr (x :: xs) => noEmptyContainer x && (xs.isEmpty || noEmptyContainer (.arr xs))
  | .obj ((_, v) :: kvs) => noEmptyContainer v && (kvs.isEmpty || noEmptyContainer (.obj kvs))
  | _ => true

/-- The call `strings.Split(s, sep)` for a one-character separator. -/
def splitChars (sep : Char) : List Char → List (List Char)
  | [] => [[]]
  | c :: cs =>
    if c = sep then [] :: splitChars sep cs
    else
      match splitChars sep cs with
      | [] => [[c]]
      | seg :: segs => (c :: seg) :: segs

/-- The value of a character of the URL alphabet, the inverse of `urlChar`. -/
def urlValue (c : Char) : Option Nat :=
  let i := encodeURL.indexOf c
  if i < 64 then some i else none

/-- Decoding of base64url text without padding (RFC 4648, section 5): four characters
give three bytes, a last group of two or three characters gives one or two bytes, and a
last group of one character, or a character outside the alphabet, is an error. -/
def decodeBase64URL : List Char → Option (List Byte)
  | [] => some []
  | [_] => none
  | [c0, c1] =>
    match urlValue c0, urlValue c1 with
    | some v0, some v1 => some [byte ((v0 * 64 + v1) / 16)]
    | _, _ => none
  | [c0, c1, c2] =>
    match urlValue c0, urlValue c1, urlValue c2 with
    | some v0, some v1, some v2 =>
      let val := v0 * 4096 + v1 * 64 + v2
      some [byte (val / 1024), byte (val / 4)]
    | _, _, _ => none
  | c0 :: c1 :: c2 :: c3 :: rest =>
    match urlValue c0, urlValue c1, urlValue c2, urlValue c3, decodeBase64URL rest with
    | some v0, some v1, some v2, some v3, some bs =>
      let val := v0 * 262144 + v1 * 4096 + v2 * 64 + v3
      some (byte (val / 65536) :: byte (val / 256) :: byte val :: bs)
    | _, _, _, _, _ => none

/-- Valid base64url text without padding: every character is of the URL alphabet (so none
is `=`), and the text decodes. -/
def IsBase64URL (seg : List Char) : Prop :=
  (∀ c ∈ seg, c ∈ encodeURL) ∧ '=' ∉ seg ∧ (decodeBase64URL seg).isSome

/-- The text `base64.RawURLEncoding.EncodeToString` gives: the encoding without padding. -/
def rawURLEncode : List Byte → List Char
  | [] => []
  | [a] =>
    let val := a.val * 65536
    [urlChar (val / 262144 % 64), urlChar (val / 4096 % 64)]
  | [a, b] =>
    let val := a.val * 65536 + b.val * 256
    [urlChar (val / 262144 % 64), urlChar (val / 4096 % 64), urlChar (val / 64 % 64)]
  | a :: b :: c :: rest =>
    let val := a.val * 65536 + b.val * 256 + c.val
    urlChar (val / 262144 % 64) :: urlChar (val / 4096 % 64) :: urlChar (val / 64 % 64) ::
      urlChar (val % 64) :: rawURLEncode rest

/-- The object `encodeJWTNatsClaims` is said to return: publishing allowed on
`baseline.>`, and nothing else. -/
def defaultNatsClaims : Obj :=
  [("permissions", JSON.obj [("publish", JSON.obj [("allow", JSON.arr [JSON.str "baseline.>"])])])]

/-! ## The scenario of the specification -/

/-- The package variables of the scenario: organization `org-1`, workgroup `wg-1`, invitee
`a@b.com`, no organization name. -/
def scenarioGlobals : Globals where
  organizationID := "org-1"
  applicationID := "wg-1"
  email := "a@b.com"
  name := ""
  jwtNatsClaimsKey := "nats"
  session := ⟨"", ""⟩

/-- The token variables of the scenario once both authorizations have run. -/
def scenarioSession : Session := ⟨"app-token", "org-token"⟩

/-- The single vault of the scenario. -/
def scenarioVault : Vault := ⟨"vault-1"⟩

/-- The secp256k1 key of the scenario, with address `0xABC`. -/
def scenarioAddressKey : Key := ⟨"key-1", "vault-1", some "secp256k1", "0xABC"⟩

/-- The RSA-4096 key of the scenario. -/
def scenarioSigningKey : Key := ⟨"key-2", "vault-1", some "RSA-4096", ""⟩

/-- The registry contract of the scenario, with address `0xDEF`. -/
def scenarioContract : Contract := ⟨"0xDEF"⟩

/-- The organization of the scenario. -/
def scenarioOrganization : Organization :=
  ⟨[("messaging_endpoint", JSON.str "nats://localhost:4222")]⟩

/-- Services that answer every call of the scenario: one vault, one key of each spec, one
registry contract, a signer that returns the hex text `00ff10`, and an identity service
that accepts the invitation. -/
def scenarioEnv : Env where
  authorizeApplicationContext s := .returned ⟨"app-token", s.organizationAccessToken⟩
  authorizeOrganizationContext s := .returned ⟨s.applicationAccessToken, "org-token"⟩
  listVaults _ _ := .ok [scenarioVault]
  listKeys _ _ params :=
    match params with
    | [(_, JSON.str "secp256k1")] => .ok [scenarioAddressKey]
    | _ => .ok [scenarioSigningKey]
  listContracts _ _ := ([scenarioContract], none)
  getOrganizationDetails _ _ _ := .ok scenarioOrganization
  signMessage _ _ _ _ _ := .ok ⟨some "00ff10"⟩
  createInvitation _ _ := none
  now := 1700000000

/-- The scenario with a vault that lists no RSA-4096 key. -/
def noSigningKeyEnv : Env :=
  { scenarioEnv with
    listKeys := fun _ _ params =>
      match params with
      | [(_, JSON.str "secp256k1")] => .ok [scenarioAddressKey]
      | _ => .ok [] }

/-- The scenario with an organization that has no vault: the listing succeeds and is
empty. -/
def noVaultEnv : Env := { scenarioEnv with listVaults := fun _ _ => .ok [] }

/-- The scenario with a vault that lists no secp256k1 key. -/
def noAddressKeyEnv : Env :=
  { scenarioEnv with
    listKeys := fun _ _ params =>
      match params with
      | [(_, JSON.str "secp256k1")] => .ok []
      | _ => .ok [scenarioSigningKey] }

/-- The scenario with no organization-registry contract: the listing succeeds and is
empty. -/
def noContractEnv : Env := { scenarioEnv with listContracts := fun _ _ => ([], none) }

/-- The scenario with a contract listing that fails: no contracts, and an error. -/
def failedContractsEnv : Env :=
  { scenarioEnv with listContracts := fun _ _ => ([], some "nchain: service unavailable") }

/-- The scenario with a contract listing that returns the contract and an error. -/
def contractsWithErrorEnv : Env :=
  { scenarioEnv with
    listContracts := fun _ _ => ([scenarioContract], some "nchain: service unavailable") }

/-- The claims of the scenario as JSON text. -/
def scenarioClaimsText : String :=
  "\x7b\"aud\":\"nats://localhost:4222\",\"baseline\":\x7b\"invitor_organization_address\":\"0xABC\",\"registry_contract_address\":\"0xDEF\",\"workgroup_id\":\"wg-1\"\x7d,\"iat\":1700000000,\"iss\":\"organization:org-1\",\"nats\":\x7b\"permissions\":\x7b\"publish\":\x7b\"allow\":[\"baseline.\\u003e\"]\x7d\x7d\x7d,\"sub\":\"a@b.com\"\x7d"

/-- The `baseline` object of the claims of the scenario. -/
def scenarioBaseline : Obj :=
  [("invitor_organization_address", JSON.str "0xABC"),
   ("registry_contract_address", JSON.str "0xDEF"),
   ("workgroup_id", JSON.str "wg-1")]

/-- The claims of the scenario. -/
def scenarioClaims : Obj :=
  [("aud", JSON.str "nats://localhost:4222"),
   ("iat", JSON.num 1700000000),
   ("iss", JSON.str "organization:org-1"),
   ("sub", JSON.str "a@b.com"),
   ("baseline", JSON.obj scenarioBaseline),
   ("nats", JSON.obj [("permissions",
      JSON.obj [("publish", JSON.obj [("allow", JSON.arr [JSON.str "baseline.>"])])])])]

/-- The token of the scenario. -/
def scenarioToken : String :=
  "eyJhbGciOiJSUzI1NiIsInR5cCI6IkpXVCJ9.eyJhdWQiOiJuYXRzOi8vbG9jYWxob3N0OjQyMjIiLCJiYXNlbGluZSI6eyJpbnZpdG9yX29yZ2FuaXphdGlvbl9hZGRyZXNzIjoiMHhBQkMiLCJyZWdpc3RyeV9jb250cmFjdF9hZGRyZXNzIjoiMHhERUYiLCJ3b3JrZ3JvdXBfaWQiOiJ3Zy0xIn0sImlhdCI6MTcwMDAwMDAwMCwiaXNzIjoib3JnYW5pemF0aW9uOm9yZy0xIiwibmF0cyI6eyJwZXJtaXNzaW9ucyI6eyJwdWJsaXNoIjp7ImFsbG93IjpbImJhc2VsaW5lLlx1MDAzZSJdfX19LCJzdWIiOiJhQGIuY29tIn0.AP8Q"

/-- The scenario a second time within the same second: every service answers as before,
and the signer returns the same signature for the same request. -/
def sameSecondEnv : Env := { scenarioEnv with now := 1700000000 }

/-- The scenario a second time, one second later. -/
def laterEnv : Env := { scenarioEnv with now := 1700000001 }

/-- The number a run of decimal digits stands for. -/
def decimalValue (digits : List Char) : Nat :=
  digits.foldl (fun acc c => acc * 10 + (c.toNat - 48)) 0

/-! ## The library routines -/

theorem fromHexChar_hexDigit : ∀ n < 16, fromHexChar (hexDigit n) = some n := by decide

theorem byte_val (b : Byte) : byte b.val = b := by
  apply Fin.ext
  simp only [byte]
  exact Nat.mod_eq_of_lt b.isLt

theorem hexDecode_hexEncode (bs : List Byte) : hexDecode (hexEncode bs) = some bs := by
  induction bs with
  | nil => rfl
  | cons b bs ih =>
    have hb := b.isLt
    have h1 : fromHexChar (hexDigit (b.val / 16)) = some (b.val / 16) :=
      fromHexChar_hexDigit _ (by omega)
    have h2 : fromHexChar (hexDigit (b.val % 16)) = some (b.val % 16) :=
      fromHexChar_hexDigit _ (by omega)
    have h3 : b.val / 16 * 16 + b.val % 16 = b.val := by omega
    simp only [hexEncode, hexDecode, h1, h2, ih, h3, byte_val]

theorem hexDecodeString_hexEncodeToString (bs : List Byte) :
    hexDecodeString (hexEncodeToString bs) = some bs := by
  simp only [hexDecodeString, hexEncodeToString, hexDecode_hexEncode]

theorem urlValue_urlChar : ∀ n < 64, urlValue (urlChar n) = some n := by decide

theorem urlChar_mem : ∀ n < 64, urlChar n ∈ encodeURL := by decide

theorem eq_not_mem_encodeURL : '=' ∉ encodeURL := by decide

theorem dot_not_mem_encodeURL : '.' ∉ encodeURL := by decide

theorem rawURLEncode_mem (bs : List Byte) : ∀ c ∈ rawURLEncode bs, c ∈ encodeURL := by
  induction bs using rawURLEncode.induct with
  | case1 => simp [rawURLEncode]
  | case2 a =>
    intro c hc
    simp only [rawURLEncode, List.mem_cons, List.mem_singleton, List.not_mem_nil, or_false] at hc
    rcases hc with h | h <;> subst h <;> exact urlChar_mem _ (Nat.mod_lt _ (by decide))
  | case3 a b =>
    intro c hc
    simp only [rawURLEncode, List.mem_cons, List.mem_singleton, List.not_mem_nil, or_false] at hc
    rcases hc with h | h | h <;> subst h <;> exact urlChar_mem _ (Nat.mod_lt _ (by decide))
  | case4 a b c rest ih =>
    intro d hd
    simp only [rawURLEncode, List.mem_cons] at hd
    rcases hd with h | h | h | h | h
    · subst h; exact urlChar_mem _ (Nat.mod_lt _ (by decide))
    · subst h; exact urlChar_mem _ (Nat.mod_lt _ (by decide))
    · subst h; exact urlChar_mem _ (Nat.mod_lt _ (by decide))
    · subst h; exact urlChar_mem _ (Nat.mod_lt _ (by decide))
    · exact ih d h

theorem decodeBase64URL_rawURLEncode (bs : List Byte) :
    decodeBase64URL (rawURLEncode bs) = some bs := by
  induction bs using rawURLEncode.induct with
  | case1 => rfl
  | case2 a =>
    have ha := a.isLt
    simp only [rawURLEncode, decodeBase64URL,
      urlValue_urlChar _ (Nat.mod_lt _ (by decide : 0 < 64))]
    have h : (a.val * 65536 / 262144 % 64 * 64 + a.val * 65536 / 4096 % 64) / 16 = a.val := by
      omega
    simp only [h, byte_val]
  | case3 a b =>
    have ha := a.isLt
    have hb := b.isLt
    simp only [rawURLEncode, decodeBase64URL,
      urlValue_urlChar _ (Nat.mod_lt _ (by decide : 0 < 64))]
    have h1 : byte (((a.val * 65536 + b.val * 256) / 262144 % 64 * 4096 +
        (a.val * 65536 + b.val * 256) / 4096 % 64 * 64 +
        (a.val * 65536 + b.val * 256) / 64 % 64) / 1024) = a := by
      apply Fin.ext; simp only [byte]; omega
    have h2 : byte (((a.val * 65536 + b.val * 256) / 262144 % 64 * 4096 +
        (a.val * 65536 + b.val * 256) / 4096 % 64 * 64 +
        (a.val * 65536 + b.val * 256) / 64 % 64) / 4) = b := by
      apply Fin.ext; simp only [byte]; omega
    simp only [h1, h2]
  | case4 a b c rest ih =>
    have ha := a.isLt
    have hb := b.isLt
    have hc := c.isLt
    simp only [rawURLEncode, decodeBase64URL,
      urlValue_urlChar _ (Nat.mod_lt _ (by decide : 0 < 64)), ih]
    have h1 : byte (((a.val * 65536 + b.val * 256 + c.val) / 262144 % 64 * 262144 +
        (a.val * 65536 + b.val * 256 + c.val) / 4096 % 64 * 4096 +
        (a.val * 65536 + b.val * 256 + c.val) / 64 % 64 * 64 +
        (a.val * 65536 + b.val * 256 + c.val) % 64) / 65536) = a := by
      apply Fin.ext; simp only [byte]; omega
    have h2 : byte (((a.val * 65536 + b.val * 256 + c.val) / 262144 % 64 * 262144 +
        (a.val * 65536 + b.val * 256 + c.val) / 4096 % 64 * 4096 +
        (a.val * 65536 + b.val * 256 + c.val) / 64 % 64 * 64 +
        (a.val * 65536 + b.val * 256 + c.val) % 64) / 256) = b := by
      apply Fin.ext; simp only [byte]; omega
    have h3 : byte ((a.val * 65536 + b.val * 256 + c.val) / 262144 % 64 * 262144 +
        (a.val * 65536 + b.val * 256 + c.val) / 4096 % 64 * 4096 +
        (a.val * 65536 + b.val * 256 + c.val) / 64 % 64 * 64 +
        (a.val * 65536 + b.val * 256 + c.val) % 64) = c := by
      apply Fin.ext; simp only [byte]; omega
    simp only [h1, h2, h3]

theorem dropWhile_append_cons (p : Char → Bool) (l r : List Char) (x : Char)
    (hx : p x = false) : (l ++ x :: r).dropWhile p = l.dropWhile p ++ x :: r := by
  induction l with
  | nil => simp [List.dropWhile, hx]
  | cons a l ih =>
    by_cases ha : p a = true
    · simp [List.dropWhile, ha, ih]
    · simp [List.dropWhile, ha]

theorem trimRight_append_cons (xs ys cutset : List Char) (x : Char) (hx : x ∉ cutset) :
    trimRight (xs ++ x :: ys) cutset = xs ++ x :: trimRight ys cutset := by
  have h : ys.reverse ++ x :: xs.reverse = (xs ++ x :: ys).reverse := by simp
  unfold trimRight
  rw [← h, dropWhile_append_cons _ _ _ _ (by simpa using hx)]
  simp

theorem urlChar_ne_pad (n : Nat) : urlChar (n % 64) ∉ "=".data := by
  intro h
  have h1 : urlChar (n % 64) = '=' := by simpa using h
  exact eq_not_mem_encodeURL (h1 ▸ urlChar_mem _ (Nat.mod_lt _ (by decide)))

theorem trimRight_base64URLEncode (bs : List Byte) :
    trimRight (base64URLEncode bs) "=".data = rawURLEncode bs := by
  induction bs using rawURLEncode.induct with
  | case1 => rfl
  | case2 a =>
    have h := trimRight_append_cons [urlChar (a.val * 65536 / 262144 % 64)] ['=', '=']
      "=".data (urlChar (a.val * 65536 / 4096 % 64)) (urlChar_ne_pad _)
    have h2 : trimRight ['=', '='] "=".data = [] := by decide
    simpa [base64URLEncode, rawURLEncode, h2] using h
  | case3 a b =>
    have h := trimRight_append_cons
      [urlChar ((a.val * 65536 + b.val * 256) / 262144 % 64),
        urlChar ((a.val * 65536 + b.val * 256) / 4096 % 64)] ['=']
      "=".data (urlChar ((a.val * 65536 + b.val * 256) / 64 % 64)) (urlChar_ne_pad _)
    have h2 : trimRight ['='] "=".data = [] := by decide
    simpa [base64URLEncode, rawURLEncode, h2] using h
  | case4 a b c rest ih =>
    have h := trimRight_append_cons
      [urlChar ((a.val * 65536 + b.val * 256 + c.val) / 262144 % 64),
        urlChar ((a.val * 65536 + b.val * 256 + c.val) / 4096 % 64),
        urlChar ((a.val * 65536 + b.val * 256 + c.val) / 64 % 64)] (base64URLEncode rest)
      "=".data (urlChar ((a.val * 65536 + b.val * 256 + c.val) % 64)) (urlChar_ne_pad _)
    simpa [base64URLEncode, rawURLEncode, ih] using h

theorem encodeSegment_data (bs : List Byte) : (encodeSegment bs).data = rawURLEncode bs :=
  trimRight_base64URLEncode bs

theorem encodeSegment_isBase64URL (bs : List Byte) : IsBase64URL (encodeSegment bs).data := by
  rw [encodeSegment_data]
  refine ⟨rawURLEncode_mem bs, ?_, ?_⟩
  · intro h
    exact eq_not_mem_encodeURL (rawURLEncode_mem bs _ h)
  · simp [decodeBase64URL_rawURLEncode]

theorem decodeBase64URL_encodeSegment (bs : List Byte) :
    decodeBase64URL (encodeSegment bs).data = some bs := by
  rw [encodeSegment_data, decodeBase64URL_rawURLEncode]

theorem encodeSegment_no_dot (bs : List Byte) : ∀ c ∈ (encodeSegment bs).data, c ≠ '.' := by
  intro c hc h
  rw [encodeSegment_data] at hc
  exact dot_not_mem_encodeURL (h ▸ rawURLEncode_mem bs c hc)

theorem splitChars_of_not_mem (sep : Char) (a : List Char) (h : ∀ c ∈ a, c ≠ sep) :
    splitChars sep a = [a] := by
  induction a with
  | nil => rfl
  | cons x a ih =>
    have hx : x ≠ sep := h x (List.mem_cons_self _ _)
    have ha : ∀ c ∈ a, c ≠ sep := fun c hc => h c (List.mem_cons_of_mem _ hc)
    simp [splitChars, hx, ih ha]

theorem splitChars_append (sep : Char) (a rest : List Char) (h : ∀ c ∈ a, c ≠ sep) :
    splitChars sep (a ++ sep :: rest) = a :: splitChars sep rest := by
  induction a with
  | nil => simp [splitChars]
  | cons x a ih =>
    have hx : x ≠ sep := h x (List.mem_cons_self _ _)
    have ha : ∀ c ∈ a, c ≠ sep := fun c hc => h c (List.mem_cons_of_mem _ hc)
    simp [splitChars, hx, ih ha]

theorem stringsJoin_pair_data (a b : String) :
    (stringsJoin [a, b] ".").data = a.data ++ '.' :: b.data := by
  simp [stringsJoin, joinChars]

/-! ## Runs of `vendJWT` and `inviteParticipant` -/

theorem encodeJWTNatsClaims_eq : encodeJWTNatsClaims =
    (some [("permissions",
      JSON.obj [("publish", JSON.obj [("allow", JSON.arr [JSON.str "baseline.>"])])])], none) :=
  rfl

theorem signingString_eq (g : Globals) (org : Organization) (issuedAt : Int) (params : Obj) :
    signingString jwtHeader (jwtClaims g org issuedAt params)
      = Except.ok (signingInput g org issuedAt params) :=
  rfl

/-- Every way a run of `vendJWT` can go, with its events and its end. -/
theorem vendJWT_cases (env : Env) (g : Globals) (s : Session) (vaultID : String)
    (params : Obj) :
    (∃ err, env.listKeys s.organizationAccessToken vaultID (keySpecFilter "RSA-4096")
        = .error err ∧
      vendJWT env g s vaultID params =
        ⟨[.listKeys s.organizationAccessToken vaultID (keySpecFilter "RSA-4096"),
          .log ("failed to resolve RSA-4096 key for organization; " ++ err)], .exited 1⟩) ∨
    (env.listKeys s.organizationAccessToken vaultID (keySpecFilter "RSA-4096") = .ok [] ∧
      vendJWT env g s vaultID params =
        ⟨[.listKeys s.organizationAccessToken vaultID (keySpecFilter "RSA-4096"),
          .log "failed to resolve RSA-4096 key for organization"], .exited 1⟩) ∨
    (∃ key rest, env.listKeys s.organizationAccessToken vaultID (keySpecFilter "RSA-4096")
        = .ok (key :: rest) ∧
      ((∃ err, env.getOrganizationDetails s.organizationAccessToken g.organizationID []
          = .error err ∧
        vendJWT env g s vaultID params =
          ⟨[.listKeys s.organizationAccessToken vaultID (keySpecFilter "RSA-4096"),
            .getOrganizationDetails s.organizationAccessToken g.organizationID [],
            .log ("failed to vend JWT; " ++ err)], .exited 1⟩) ∨
      (∃ org, env.getOrganizationDetails s.organizationAccessToken g.organizationID []
          = .ok org ∧
        ((key.spec = none ∧
          vendJWT env g s vaultID params =
            ⟨[.listKeys s.organizationAccessToken vaultID (keySpecFilter "RSA-4096"),
              .getOrganizationDetails s.organizationAccessToken g.organizationID []],
             .panicked "runtime error: invalid memory address or nil pointer dereference"⟩) ∨
        (∃ spec, key.spec = some spec ∧
          ((∃ err, env.signMessage s.organizationAccessToken key.vaultID key.id
              (hexEncodeToString (toBytes (signingInput g org env.now params)))
              (signOptions spec) = .error err ∧
            vendJWT env g s vaultID params =
              ⟨[.listKeys s.organizationAccessToken vaultID (keySpecFilter "RSA-4096"),
                .getOrganizationDetails s.organizationAccessToken g.organizationID [],
                .signMessage s.organizationAccessToken key.vaultID key.id
                  (hexEncodeToString (toBytes (signingInput g org env.now params)))
                  (signOptions spec),
                .log ("WARNING: failed to sign JWT using vault key: " ++ key.id ++ "; " ++ err)],
               .exited 1⟩) ∨
          (env.signMessage s.organizationAccessToken key.vaultID key.id
              (hexEncodeToString (toBytes (signingInput g org env.now params)))
              (signOptions spec) = .ok ⟨none⟩ ∧
            vendJWT env g s vaultID params =
              ⟨[.listKeys s.organizationAccessToken vaultID (keySpecFilter "RSA-4096"),
                .getOrganizationDetails s.organizationAccessToken g.organizationID [],
                .signMessage s.organizationAccessToken key.vaultID key.id
                  (hexEncodeToString (toBytes (signingInput g org env.now params)))
                  (signOptions spec)],
               .panicked "runtime error: invalid memory address or nil pointer dereference"⟩) ∨
          (∃ sig, env.signMessage s.organizationAccessToken key.vaultID key.id
              (hexEncodeToString (toBytes (signingInput g org env.now params)))
              (signOptions spec) = .ok ⟨some sig⟩ ∧
            ((hexDecodeString sig = none ∧
              vendJWT env g s vaultID params =
                ⟨[.listKeys s.organizationAccessToken vaultID (keySpecFilter "RSA-4096"),
                  .getOrganizationDetails s.organizationAccessToken g.organizationID [],
                  .signMessage s.organizationAccessToken key.vaultID key.id
                    (hexEncodeToString (toBytes (signingInput g org env.now params)))
                    (signOptions spec),
                  .log "failed to decode signature from hex; "], .exited 1⟩) ∨
            (∃ bs, hexDecodeString sig = some bs ∧
              vendJWT env g s vaultID params =
                ⟨[.listKeys s.organizationAccessToken vaultID (keySpecFilter "RSA-4096"),
                  .getOrganizationDetails s.organizationAccessToken g.organizationID [],
                  .signMessage s.organizationAccessToken key.vaultID key.id
                    (hexEncodeToString (toBytes (signingInput g org env.now params)))
                    (signOptions spec)],
                 .returned
                  (stringsJoin [signingInput g org env.now params, encodeSegment bs] ".")⟩)))))))))
    := by
  simp only [keySpecFilter]
  rcases hk : env.listKeys s.organizationAccessToken vaultID [("spec", JSON.str "RSA-4096")]
    with err | keys
  · left
    refine ⟨err, rfl, ?_⟩
    simp [vendJWT, bind, Run.bind, call, hk, pure, logPrint, emit, osExit]
  · right
    rcases keys with _ | ⟨key, rest⟩
    · left
      refine ⟨rfl, ?_⟩
      simp [vendJWT, bind, Run.bind, call, hk, pure, logPrint, emit, osExit]
    · right
      refine ⟨key, rest, rfl, ?_⟩
      rcases ho : env.getOrganizationDetails s.organizationAccessToken g.organizationID []
        with err | org
      · left
        refine ⟨err, rfl, ?_⟩
        simp [vendJWT, bind, Run.bind, call, hk, ho, pure, first, logPrint, emit, osExit]
      · right
        refine ⟨org, rfl, ?_⟩
        rcases hs : key.spec with _ | spec
        · left
          refine ⟨rfl, ?_⟩
          simp [vendJWT, bind, Run.bind, call, hk, ho, hs, pure, first, deref, logPrint, emit,
            osExit, signingString, encodeJWTNatsClaims_eq]
        · right
          refine ⟨spec, rfl, ?_⟩
          rcases hsig : env.signMessage s.organizationAccessToken key.vaultID key.id
            (hexEncodeToString (toBytes (signingInput g org env.now params))) (signOptions spec)
            with err | ⟨_ | sig⟩
          · left
            refine ⟨err, rfl, ?_⟩
            simp only [signingInput, jwtClaims, encodeJWTNatsClaims_eq] at hsig ⊢
            simp [vendJWT, bind, Run.bind, call, hk, ho, hs, pure, first, deref, logPrint, emit,
              osExit, signingString, encodeJWTNatsClaims_eq, hsig]
          · right; left
            refine ⟨rfl, ?_⟩
            simp only [signingInput, jwtClaims, encodeJWTNatsClaims_eq] at hsig ⊢
            simp [vendJWT, bind, Run.bind, call, hk, ho, hs, pure, first, deref, logPrint, emit,
              osExit, signingString, encodeJWTNatsClaims_eq, hsig]
          · right; right
            refine ⟨sig, rfl, ?_⟩
            rcases hhex : hexDecodeString sig with _ | bs
            · left
              refine ⟨rfl, ?_⟩
              simp only [signingInput, jwtClaims, encodeJWTNatsClaims_eq] at hsig ⊢
              simp [vendJWT, bind, Run.bind, call, hk, ho, hs, pure, first, deref, logPrint,
                emit, osExit, signingString, encodeJWTNatsClaims_eq, hsig, hhex]
            · right
              refine ⟨bs, rfl, ?_⟩
              simp only [signingInput, jwtClaims, encodeJWTNatsClaims_eq] at hsig ⊢
              simp [vendJWT, bind, Run.bind, call, hk, ho, hs, pure, first, deref, logPrint,
                emit, osExit, signingString, encodeJWTNatsClaims_eq, hsig, hhex]

/-- Every way a run of `inviteParticipant` can go, with its events and its end. -/
theorem inviteParticipant_cases (env : Env) (g : Globals) :
    (∃ code, env.authorizeApplicationContext g.session = .exited code ∧
      inviteParticipant env g = ⟨[], .exited code⟩) ∨
    (∃ reason, env.authorizeApplicationContext g.session = .panicked reason ∧
      inviteParticipant env g = ⟨[], .panicked reason⟩) ∨
    (∃ s1, env.authorizeApplicationContext g.session = .returned s1 ∧
      ((∃ code, env.authorizeOrganizationContext s1 = .exited code ∧
        inviteParticipant env g = ⟨[], .exited code⟩) ∨
      (∃ reason, env.authorizeOrganizationContext s1 = .panicked reason ∧
        inviteParticipant env g = ⟨[], .panicked reason⟩) ∨
      (∃ s, env.authorizeOrganizationContext s1 = .returned s ∧
        ((∃ err, env.listVaults s.organizationAccessToken (vaultsRequest g) = .error err ∧
          inviteParticipant env g =
            ⟨[.listVaults s.organizationAccessToken (vaultsRequest g),
              .log ("failed to resolve vault for organization; " ++ err)], .exited 1⟩) ∨
        (env.listVaults s.organizationAccessToken (vaultsRequest g) = .ok [] ∧
          inviteParticipant env g =
            ⟨[.listVaults s.organizationAccessToken (vaultsRequest g)],
             .panicked "runtime error: index out of range [0] with length 0"⟩) ∨
        (∃ vault vaults, env.listVaults s.organizationAccessToken (vaultsRequest g)
            = .ok (vault :: vaults) ∧
          ((∃ err, env.listKeys s.organizationAccessToken vault.id (keySpecFilter "secp256k1")
              = .error err ∧
            inviteParticipant env g =
              ⟨[.listVaults s.organizationAccessToken (vaultsRequest g),
                .listKeys s.organizationAccessToken vault.id (keySpecFilter "secp256k1"),
                .log ("failed to resolve secp256k1 key for organization; " ++ err)],
               .exited 1⟩) ∨
          (env.listKeys s.organizationAccessToken vault.id (keySpecFilter "secp256k1")
              = .ok [] ∧
            inviteParticipant env g =
              ⟨listingEvents g s vault,
               .panicked "runtime error: index out of range [0] with length 0"⟩) ∨
          (∃ key keys, env.listKeys s.organizationAccessToken vault.id
              (keySpecFilter "secp256k1") = .ok (key :: keys) ∧
            (((env.listContracts s.applicationAccessToken contractsRequest).1 = [] ∧
              inviteParticipant env g =
                ⟨listingEvents g s vault,
                 .panicked "runtime error: index out of range [0] with length 0"⟩) ∨
            (∃ contract contracts,
              (env.listContracts s.applicationAccessToken contractsRequest).1
                = contract :: contracts ∧
              ((∃ code, (vendJWT env g s vault.id (baselineParams g key contract)).out
                  = .exited code ∧
                inviteParticipant env g =
                  ⟨listingEvents g s vault ++
                    (vendJWT env g s vault.id (baselineParams g key contract)).trace,
                   .exited code⟩) ∨
              (∃ reason, (vendJWT env g s vault.id (baselineParams g key contract)).out
                  = .panicked reason ∧
                inviteParticipant env g =
                  ⟨listingEvents g s vault ++
                    (vendJWT env g s vault.id (baselineParams g key contract)).trace,
                   .panicked reason⟩) ∨
              (∃ token, (vendJWT env g s vault.id (baselineParams g key contract)).out
                  = .returned token ∧
                ((∃ err, env.createInvitation s.applicationAccessToken
                    (invitationPayload g (invitationParams g key contract token)) = some err ∧
                  inviteParticipant env g =
                    ⟨listingEvents g s vault ++
                      (vendJWT env g s vault.id (baselineParams g key contract)).trace ++
                      [.createInvitation s.applicationAccessToken
                        (invitationPayload g (invitationParams g key contract token)),
                       .log ("failed to invite baseline workgroup participants; " ++ err)],
                     .exited 1⟩) ∨
                (env.createInvitation s.applicationAccessToken
                    (invitationPayload g (invitationParams g key contract token)) = none ∧
                  inviteParticipant env g =
                    ⟨listingEvents g s vault ++
                      (vendJWT env g s vault.id (baselineParams g key contract)).trace ++
                      [.createInvitation s.applicationAccessToken
                        (invitationPayload g (invitationParams g key contract token)),
                       .log (invitedLine g token)],
                     .returned ()⟩))))))))))))) := by
  rcases ha : env.authorizeApplicationContext g.session with s1 | code | reason
  · right; right
    refine ⟨s1, rfl, ?_⟩
    rcases hb : env.authorizeOrganizationContext s1 with s | code | reason
    · right; right
      refine ⟨s, rfl, ?_⟩
      rcases hv : env.listVaults s.organizationAccessToken (vaultsRequest g) with err | vaults
      · left
        refine ⟨err, rfl, ?_⟩
        simp only [vaultsRequest] at hv ⊢
        simp [inviteParticipant, bind, Run.bind, helper, call, ha, hb, hv, pure, logPrint, emit,
          osExit]
      · right
        rcases vaults with _ | ⟨vault, vaults⟩
        · left
          refine ⟨rfl, ?_⟩
          simp only [vaultsRequest] at hv ⊢
          simp [inviteParticipant, bind, Run.bind, helper, call, ha, hb, hv, pure, first]
        · right
          refine ⟨vault, vaults, rfl, ?_⟩
          rcases hk : env.listKeys s.organizationAccessToken vault.id
            (keySpecFilter "secp256k1") with err | keys
          · left
            refine ⟨err, rfl, ?_⟩
            simp only [vaultsRequest, keySpecFilter] at hv hk ⊢
            simp [inviteParticipant, bind, Run.bind, helper, call, ha, hb, hv, hk, pure, first,
              logPrint, emit, osExit]
          · right
            rcases keys with _ | ⟨key, keys⟩
            · left
              refine ⟨rfl, ?_⟩
              simp only [vaultsRequest, keySpecFilter, listingEvents, contractsRequest] at hv hk ⊢
              simp [inviteParticipant, bind, Run.bind, helper, call, ha, hb, hv, hk, pure, first]
            · right
              refine ⟨key, keys, rfl, ?_⟩
              rcases hc : (env.listContracts s.applicationAccessToken contractsRequest).1
                with _ | ⟨contract, contracts⟩
              · left
                refine ⟨rfl, ?_⟩
                simp only [vaultsRequest, keySpecFilter, listingEvents, contractsRequest]
                  at hv hk hc ⊢
                simp [inviteParticipant, bind, Run.bind, helper, call, ha, hb, hv, hk, hc, pure,
                  first]
              · right
                refine ⟨contract, contracts, rfl, ?_⟩
                rcases hj : (vendJWT env g s vault.id (baselineParams g key contract)).out
                  with token | code | reason
                · right; right
                  refine ⟨token, rfl, ?_⟩
                  rcases hi : env.createInvitation s.applicationAccessToken
                    (invitationPayload g (invitationParams g key contract token)) with _ | err
                  · right
                    refine ⟨rfl, ?_⟩
                    simp only [vaultsRequest, keySpecFilter, listingEvents, contractsRequest,
                      baselineParams, invitationParams, invitedLine, ne_eq, ite_not]
                      at hv hk hc hj hi ⊢
                    simp [inviteParticipant, bind, Run.bind, helper, call, ha, hb, hv, hk, hc,
                      hj, hi, pure, first, logPrint, emit, osExit]
                  · left
                    refine ⟨err, rfl, ?_⟩
                    simp only [vaultsRequest, keySpecFilter, listingEvents, contractsRequest,
                      baselineParams, invitationParams, invitedLine, ne_eq, ite_not]
                      at hv hk hc hj hi ⊢
                    simp [inviteParticipant, bind, Run.bind, helper, call, ha, hb, hv, hk, hc,
                      hj, hi, pure, first, logPrint, emit, osExit]
                · left
                  refine ⟨code, rfl, ?_⟩
                  simp only [vaultsRequest, keySpecFilter, listingEvents, contractsRequest,
                    baselineParams] at hv hk hc hj ⊢
                  simp [inviteParticipant, bind, Run.bind, helper, call, ha, hb, hv, hk, hc,
                    hj, pure, first]
                · right; left
                  refine ⟨reason, rfl, ?_⟩
                  simp only [vaultsRequest, keySpecFilter, listingEvents, contractsRequest,
                    baselineParams] at hv hk hc hj ⊢
                  simp [inviteParticipant, bind, Run.bind, helper, call, ha, hb, hv, hk, hc,
                    hj, pure, first]
    · left
      refine ⟨code, rfl, ?_⟩
      simp [inviteParticipant, bind, Run.bind, helper, ha, hb]
    · right; left
      refine ⟨reason, rfl, ?_⟩
      simp [inviteParticipant, bind, Run.bind, helper, ha, hb]
  · left
    refine ⟨code, rfl, ?_⟩
    simp [inviteParticipant, bind, Run.bind, helper, ha]
  · right; left
    refine ⟨reason, rfl, ?_⟩
    simp [inviteParticipant, bind, Run.bind, helper, ha]

theorem vendJWT_run (env : Env) (g : Globals) (s : Session) (vaultID : String) (params : Obj)
    (key : Key) (rest : List Key) (org : Organization) (spec sig : String) (bs : List Byte)
    (hk : env.listKeys s.organizationAccessToken vaultID (keySpecFilter "RSA-4096") = .ok (key :: rest))
    (ho : env.getOrganizationDetails s.organizationAccessToken g.organizationID [] = .ok org)
    (hs : key.spec = some spec)
    (hsig : env.signMessage s.organizationAccessToken key.vaultID key.id
      (hexEncodeToString (toBytes (signingInput g org env.now params))) (signOptions spec) = .ok ⟨some sig⟩)
    (hhex : hexDecodeString sig = some bs) :
    vendJWT env g s vaultID params =
      ⟨[.listKeys s.organizationAccessToken vaultID (keySpecFilter "RSA-4096"),
        .getOrganizationDetails s.organizationAccessToken g.organizationID [],
        .signMessage s.organizationAccessToken key.vaultID key.id
          (hexEncodeToString (toBytes (signingInput g org env.now params))) (signOptions spec)],
       .returned (stringsJoin [signingInput g org env.now params, encodeSegment bs] ".")⟩ := by
  simp only [signingInput, jwtClaims, encodeJWTNatsClaims_eq, keySpecFilter] at hk hsig ⊢
  simp [vendJWT, bind, Run.bind, call, hk, ho, hs, first, deref, pure, signingString, encodeJWTNatsClaims_eq, hsig, hhex, logPrint, emit, osExit]


theorem vendJWT_sign_inv (env : Env) (g : Globals) (s : Session) (vaultID : String)
    (params : Obj) (tok vid kid msg : String) (opts : Obj)
    (hmem : Event.signMessage tok vid kid msg opts ∈ (vendJWT env g s vaultID params).trace) :
    ∃ key rest org spec,
      env.listKeys s.organizationAccessToken vaultID (keySpecFilter "RSA-4096")
        = .ok (key :: rest) ∧
      env.getOrganizationDetails s.organizationAccessToken g.organizationID [] = .ok org ∧
      key.spec = some spec ∧
      tok = s.organizationAccessToken ∧ vid = key.vaultID ∧ kid = key.id ∧
      msg = hexEncodeToString (toBytes (signingInput g org env.now params)) ∧
      opts = signOptions spec := by
  rcases vendJWT_cases env g s vaultID params with
    ⟨err, hk, hr⟩ | ⟨hk, hr⟩ | ⟨key, rest, hk, ⟨err, ho, hr⟩ | ⟨org, ho, ⟨hs, hr⟩ |
      ⟨spec, hs, ⟨err, hsg, hr⟩ | ⟨hsg, hr⟩ | ⟨sig, hsg, ⟨hx, hr⟩ | ⟨bs, hx, hr⟩⟩⟩⟩⟩
  all_goals rw [hr] at hmem
  all_goals simp at hmem
  all_goals exact ⟨key, rest, org, spec, hk, ho, hs, hmem⟩

theorem vendJWT_returned_inv (env : Env) (g : Globals) (s : Session) (vaultID : String)
    (params : Obj) (token : String)
    (hret : (vendJWT env g s vaultID params).out = .returned token) :
    ∃ key rest org spec sig bs,
      env.listKeys s.organizationAccessToken vaultID (keySpecFilter "RSA-4096")
        = .ok (key :: rest) ∧
      env.getOrganizationDetails s.organizationAccessToken g.organizationID [] = .ok org ∧
      key.spec = some spec ∧
      env.signMessage s.organizationAccessToken key.vaultID key.id
        (hexEncodeToString (toBytes (signingInput g org env.now params))) (signOptions spec)
        = .ok ⟨some sig⟩ ∧
      hexDecodeString sig = some bs ∧
      token = stringsJoin [signingInput g org env.now params, encodeSegment bs] "." ∧
      (vendJWT env g s vaultID params).trace =
        [.listKeys s.organizationAccessToken vaultID (keySpecFilter "RSA-4096"),
         .getOrganizationDetails s.organizationAccessToken g.organizationID [],
         .signMessage s.organizationAccessToken key.vaultID key.id
           (hexEncodeToString (toBytes (signingInput g org env.now params)))
           (signOptions spec)] := by
  rcases vendJWT_cases env g s vaultID params with
    ⟨err, hk, hr⟩ | ⟨hk, hr⟩ | ⟨key, rest, hk, ⟨err, ho, hr⟩ | ⟨org, ho, ⟨hs, hr⟩ |
      ⟨spec, hs, ⟨err, hsg, hr⟩ | ⟨hsg, hr⟩ | ⟨sig, hsg, ⟨hx, hr⟩ | ⟨bs, hx, hr⟩⟩⟩⟩⟩
  all_goals rw [hr] at hret
  all_goals simp at hret
  exact ⟨key, rest, org, spec, sig, bs, hk, ho, hs, hsg, hx, hret.symm, by rw [hr]⟩

theorem signingInput_data (g : Globals) (org : Organization) (issuedAt : Int) (params : Obj) :
    (signingInput g org issuedAt params).data =
      (encodeSegment (jsonMarshal (JSON.obj jwtHeader))).data ++
        '.' :: (encodeSegment (jsonMarshal (JSON.obj (jwtClaims g org issuedAt params)))).data :=
  stringsJoin_pair_data _ _

theorem token_split (g : Globals) (org : Organization) (issuedAt : Int) (params : Obj)
    (bs : List Byte) :
    splitChars '.' (stringsJoin [signingInput g org issuedAt params, encodeSegment bs] ".").data
      = [(encodeSegment (jsonMarshal (JSON.obj jwtHeader))).data,
         (encodeSegment (jsonMarshal (JSON.obj (jwtClaims g org issuedAt params)))).data,
         (encodeSegment bs).data] := by
  rw [stringsJoin_pair_data, signingInput_data, List.append_assoc, List.cons_append,
    splitChars_append _ _ _ (encodeSegment_no_dot _),
    splitChars_append _ _ _ (encodeSegment_no_dot _),
    splitChars_of_not_mem _ _ (encodeSegment_no_dot _)]

/-! ## The token -/

/-- C1: in every run of `vendJWT` in which the RSA-4096 key listing is not empty, the
organization lookup succeeds and the key service answers the signing request of the run
with a signature that decodes from hex, `vendJWT` returns a token that splits on `.` into
exactly three segments, each valid base64url text with no `=`: the encoded header, the
encoded claims and the encoded signature. -/
theorem vendJWT_token_three_segments (env : Env) (g : Globals) (s : Session)
    (vaultID : String) (params : Obj) (keys : List Key) (org : Organization)
    (tok vid kid msg sig : String) (opts : Obj) (bs : List Byte)
    (hkeys : env.listKeys s.organizationAccessToken vaultID (keySpecFilter "RSA-4096")
      = .ok keys)
    (hne : keys ≠ [])
    (horg : env.getOrganizationDetails s.organizationAccessToken g.organizationID [] = .ok org)
    (hcall : Event.signMessage tok vid kid msg opts ∈ (vendJWT env g s vaultID params).trace)
    (hsig : env.signMessage tok vid kid msg opts = .ok ⟨some sig⟩)
    (hhex : hexDecodeString sig = some bs) :
    ∃ token header claims signature,
      (vendJWT env g s vaultID params).out = .returned token ∧
      splitChars '.' token.data = [header, claims, signature] ∧
      IsBase64URL header ∧ IsBase64URL claims ∧ IsBase64URL signature ∧
      header = (encodeSegment (jsonMarshal (JSON.obj jwtHeader))).data ∧
      claims = (encodeSegment (jsonMarshal (JSON.obj (jwtClaims g org env.now params)))).data ∧
      signature = (encodeSegment bs).data := by
  obtain ⟨key, rest, org', spec, hk, ho, hs, rfl, rfl, rfl, rfl, rfl⟩ :=
    vendJWT_sign_inv env g s vaultID params tok vid kid msg opts hcall
  have horg' : org' = org := by
    rw [ho] at horg
    exact Except.ok.inj horg
  subst horg'
  have hrun := vendJWT_run env g s vaultID params key rest org' spec sig bs hk ho hs hsig hhex
  refine ⟨_, _, _, _, by rw [hrun], token_split g org' env.now params bs,
    encodeSegment_isBase64URL _, encodeSegment_isBase64URL _, encodeSegment_isBase64URL _,
    rfl, rfl, rfl⟩

theorem vendJWT_token_three_segments_witness :
    ∃ token header claims signature,
      (vendJWT scenarioEnv scenarioGlobals scenarioSession "vault-1"
        (baselineParams scenarioGlobals scenarioAddressKey scenarioContract)).out
        = .returned token ∧
      splitChars '.' token.data = [header, claims, signature] ∧
      IsBase64URL header ∧ IsBase64URL claims ∧ IsBase64URL signature ∧
      header = (encodeSegment (jsonMarshal (JSON.obj jwtHeader))).data ∧
      claims = (encodeSegment (jsonMarshal (JSON.obj (jwtClaims scenarioGlobals
        scenarioOrganization scenarioEnv.now
        (baselineParams scenarioGlobals scenarioAddressKey scenarioContract))))).data ∧
      signature = (encodeSegment [0, 255, 16]).data :=
  vendJWT_token_three_segments scenarioEnv scenarioGlobals scenarioSession "vault-1"
    (baselineParams scenarioGlobals scenarioAddressKey scenarioContract)
    [scenarioSigningKey] scenarioOrganization "org-token" "vault-1" "key-2"
    (hexEncodeToString (toBytes (signingInput scenarioGlobals scenarioOrganization
      scenarioEnv.now (baselineParams scenarioGlobals scenarioAddressKey scenarioContract))))
    "00ff10" (signOptions "RSA-4096") [0, 255, 16]
    rfl (by simp) rfl (List.Mem.tail _ (List.Mem.tail _ (List.Mem.head _))) rfl (by decide)

set_option maxRecDepth 1000000 in
theorem scenario_token :
    (vendJWT scenarioEnv scenarioGlobals scenarioSession "vault-1"
      (baselineParams scenarioGlobals scenarioAddressKey scenarioContract)).out =
    .returned scenarioToken := by
  rfl

/-- C2: in every run of `vendJWT` that returns a token, the only signing request carries
the hex encoding of the bytes of the signing string, and the token is that signing string,
a `.`, and the unpadded base64url encoding of the hex-decoded signature: decoding the
request from hex gives the first two segments of the token joined by `.`, and decoding
the third segment from base64url gives the signature bytes the signer returned. -/
theorem vendJWT_signs_signing_string (env : Env) (g : Globals) (s : Session)
    (vaultID : String) (params : Obj) (token : String)
    (hret : (vendJWT env g s vaultID params).out = .returned token) :
    ∃ (key : Key) (org : Organization) (spec strToSign sig : String) (sigBytes : List Byte)
      (header claims signature : List Char),
      signingString jwtHeader (jwtClaims g org env.now params) = .ok strToSign ∧
      (vendJWT env g s vaultID params).trace.filter Event.isSignMessage =
        [.signMessage s.organizationAccessToken key.vaultID key.id
          (hexEncodeToString (toBytes strToSign)) (signOptions spec)] ∧
      env.signMessage s.organizationAccessToken key.vaultID key.id
        (hexEncodeToString (toBytes strToSign)) (signOptions spec) = .ok ⟨some sig⟩ ∧
      hexDecodeString sig = some sigBytes ∧
      token = stringsJoin [strToSign, encodeSegment sigBytes] "." ∧
      splitChars '.' token.data = [header, claims, signature] ∧
      hexDecodeString (hexEncodeToString (toBytes strToSign))
        = some (toBytes ⟨header ++ '.' :: claims⟩) ∧
      decodeBase64URL signature = some sigBytes := by
  obtain ⟨key, rest, org, spec, sig, bs, hk, ho, hs, hsig, hhex, htok, htrace⟩ :=
    vendJWT_returned_inv env g s vaultID params token hret
  refine ⟨key, org, spec, signingInput g org env.now params, sig, bs,
    (encodeSegment (jsonMarshal (JSON.obj jwtHeader))).data,
    (encodeSegment (jsonMarshal (JSON.obj (jwtClaims g org env.now params)))).data,
    (encodeSegment bs).data,
    signingString_eq g org env.now params, ?_, hsig, hhex, htok, ?_, ?_, ?_⟩
  · rw [htrace]
    simp [List.filter, Event.isSignMessage]
  · rw [htok]
    exact token_split g org env.now params bs
  · rw [hexDecodeString_hexEncodeToString, ← signingInput_data]
  · exact decodeBase64URL_encodeSegment bs

theorem vendJWT_signs_signing_string_witness :
    ∃ (key : Key) (org : Organization) (spec strToSign sig : String) (sigBytes : List Byte)
      (header claims signature : List Char),
      signingString jwtHeader (jwtClaims scenarioGlobals org scenarioEnv.now
        (baselineParams scenarioGlobals scenarioAddressKey scenarioContract)) = .ok strToSign ∧
      (vendJWT scenarioEnv scenarioGlobals scenarioSession "vault-1"
        (baselineParams scenarioGlobals scenarioAddressKey scenarioContract)).trace.filter
          Event.isSignMessage =
        [.signMessage scenarioSession.organizationAccessToken key.vaultID key.id
          (hexEncodeToString (toBytes strToSign)) (signOptions spec)] ∧
      scenarioEnv.signMessage scenarioSession.organizationAccessToken key.vaultID key.id
        (hexEncodeToString (toBytes strToSign)) (signOptions spec) = .ok ⟨some sig⟩ ∧
      hexDecodeString sig = some sigBytes ∧
      scenarioToken = stringsJoin [strToSign, encodeSegment sigBytes] "." ∧
      splitChars '.' scenarioToken.data = [header, claims, signature] ∧
      hexDecodeString (hexEncodeToString (toBytes strToSign))
        = some (toBytes ⟨header ++ '.' :: claims⟩) ∧
      decodeBase64URL signature = some sigBytes :=
  vendJWT_signs_signing_string scenarioEnv scenarioGlobals scenarioSession "vault-1"
    (baselineParams scenarioGlobals scenarioAddressKey scenarioContract) scenarioToken
    scenario_token

/-! ## The claims inside the token -/

theorem mapGet_mapSet_self (m : Obj) (k : String) (v : JSON) :
    mapGet (mapSet m k v) k = some v := by
  induction m with
  | nil => simp [mapSet, mapGet, List.lookup]
  | cons kv m ih =>
    obtain ⟨k', v'⟩ := kv
    by_cases h : k' = k
    · simp [mapSet, mapGet, List.lookup, h]
    · have h' : (k == k') = false := by simpa using fun e => h e.symm
      simp only [mapGet] at ih
      simp [mapSet, mapGet, List.lookup, h, h', ih]

theorem mapGet_mapSet_ne (m : Obj) (k k' : String) (v : JSON) (hne : k ≠ k') :
    mapGet (mapSet m k v) k' = mapGet m k' := by
  induction m with
  | nil =>
    have h' : (k' == k) = false := by simpa using fun e => hne e.symm
    simp [mapSet, mapGet, List.lookup, h']
  | cons kv m ih =>
    obtain ⟨k₁, v₁⟩ := kv
    simp only [mapGet] at ih
    by_cases h : k₁ = k
    · subst h
      have h' : (k' == k₁) = false := by simpa using fun e => hne e.symm
      simp [mapSet, mapGet, List.lookup, h']
    · by_cases h2 : k' = k₁
      · subst h2
        simp [mapSet, mapGet, List.lookup, h]
      · have h' : (k' == k₁) = false := by simpa using h2
        simp [mapSet, mapGet, List.lookup, h, h', ih]

theorem jwtClaims_get (g : Globals) (org : Organization) (issuedAt : Int) (params : Obj)
    (k : String) (hk : g.jwtNatsClaimsKey ≠ k) :
    mapGet (jwtClaims g org issuedAt params) k = mapGet (baseClaims g org issuedAt params) k := by
  simp only [jwtClaims, encodeJWTNatsClaims_eq, mergeNatsClaims]
  exact mapGet_mapSet_ne _ _ _ _ hk

/-- What a run of `inviteParticipant` that returns has gone through. -/
theorem inviteParticipant_returned_inv (env : Env) (g : Globals)
    (hok : (inviteParticipant env g).out = .returned ()) :
    ∃ (s1 s : Session) (vault : Vault) (vaults : List Vault) (key : Key) (keys : List Key)
      (contract : Contract) (contracts : List Contract) (token : String),
      env.authorizeApplicationContext g.session = .returned s1 ∧
      env.authorizeOrganizationContext s1 = .returned s ∧
      env.listVaults s.organizationAccessToken (vaultsRequest g) = .ok (vault :: vaults) ∧
      env.listKeys s.organizationAccessToken vault.id (keySpecFilter "secp256k1")
        = .ok (key :: keys) ∧
      (env.listContracts s.applicationAccessToken contractsRequest).1 = contract :: contracts ∧
      (vendJWT env g s vault.id (baselineParams g key contract)).out = .returned token ∧
      env.createInvitation s.applicationAccessToken
        (invitationPayload g (invitationParams g key contract token)) = none ∧
      inviteParticipant env g =
        ⟨listingEvents g s vault ++
          (vendJWT env g s vault.id (baselineParams g key contract)).trace ++
          [.createInvitation s.applicationAccessToken
            (invitationPayload g (invitationParams g key contract token)),
           .log (invitedLine g token)],
         .returned ()⟩ := by
  rcases inviteParticipant_cases env g with
    ⟨code, _, hr⟩ | ⟨reason, _, hr⟩ | ⟨s1, ha, ⟨code, _, hr⟩ | ⟨reason, _, hr⟩ | ⟨s, hb,
      ⟨err, _, hr⟩ | ⟨_, hr⟩ | ⟨vault, vaults, hv, ⟨err, _, hr⟩ | ⟨_, hr⟩ | ⟨key, keys, hk,
        ⟨_, hr⟩ | ⟨contract, contracts, hc, ⟨code, _, hr⟩ | ⟨reason, _, hr⟩ | ⟨token, hj,
          ⟨err, _, hr⟩ | ⟨hi, hr⟩⟩⟩⟩⟩⟩⟩
  all_goals rw [hr] at hok
  all_goals simp at hok
  exact ⟨s1, s, vault, vaults, key, keys, contract, contracts, token, ha, hb, hv, hk, hc, hj,
    hi, hr⟩

/-- C3: after every invitation that succeeds, the claim set encoded in the middle segment
of the token has `sub` equal to the participant email and a `baseline` object whose
`workgroup_id` is the workgroup identifier, whose `invitor_organization_address` is the
address of the first listed secp256k1 key and whose `registry_contract_address` is the
address of the first listed organization-registry contract. The reserved NATS claims key
is taken to differ from `sub` and `baseline`. -/
theorem invitation_token_claims (env : Env) (g : Globals)
    (hsub : g.jwtNatsClaimsKey ≠ "sub") (hbaseline : g.jwtNatsClaimsKey ≠ "baseline")
    (hok : (inviteParticipant env g).out = .returned ()) :
    ∃ (s : Session) (vault : Vault) (vaults : List Vault) (key : Key) (keys : List Key)
      (contract : Contract) (contracts : List Contract) (token : String)
      (header middle signature : List Char) (claims baseline : Obj),
      env.listVaults s.organizationAccessToken (vaultsRequest g) = .ok (vault :: vaults) ∧
      env.listKeys s.organizationAccessToken vault.id (keySpecFilter "secp256k1")
        = .ok (key :: keys) ∧
      (env.listContracts s.applicationAccessToken contractsRequest).1 = contract :: contracts ∧
      (vendJWT env g s vault.id (baselineParams g key contract)).out = .returned token ∧
      Event.log (invitedLine g token) ∈ (inviteParticipant env g).trace ∧
      splitChars '.' token.data = [header, middle, signature] ∧
      decodeBase64URL middle = some (jsonMarshal (JSON.obj claims)) ∧
      mapGet claims "sub" = some (JSON.str g.email) ∧
      mapGet claims "baseline" = some (JSON.obj baseline) ∧
      mapGet baseline "workgroup_id" = some (JSON.str g.applicationID) ∧
      mapGet baseline "invitor_organization_address" = some (JSON.str key.address) ∧
      mapGet baseline "registry_contract_address" = some (JSON.str contract.address) := by
  obtain ⟨s1, s, vault, vaults, key, keys, contract, contracts, token, -, -, hv, hk, hc, hj,
    -, hr⟩ := inviteParticipant_returned_inv env g hok
  obtain ⟨-, -, org, -, -, bs, -, -, -, -, -, htok, -⟩ :=
    vendJWT_returned_inv env g s vault.id (baselineParams g key contract) token hj
  refine ⟨s, vault, vaults, key, keys, contract, contracts, token,
    (encodeSegment (jsonMarshal (JSON.obj jwtHeader))).data,
    (encodeSegment (jsonMarshal
      (JSON.obj (jwtClaims g org env.now (baselineParams g key contract))))).data,
    (encodeSegment bs).data, jwtClaims g org env.now (baselineParams g key contract),
    baselineParams g key contract, hv, hk, hc, hj, ?_, ?_, ?_, ?_, ?_, ?_, ?_, ?_⟩
  · rw [hr]
    simp
  · rw [htok]
    exact token_split g org env.now _ bs
  · exact decodeBase64URL_encodeSegment _
  · rw [jwtClaims_get _ _ _ _ _ hsub]
    rfl
  · rw [jwtClaims_get _ _ _ _ _ hbaseline]
    rfl
  · rfl
  · rfl
  · rfl

set_option maxRecDepth 1000000 in
theorem scenario_invitation :
    inviteParticipant scenarioEnv scenarioGlobals =
      ⟨listingEvents scenarioGlobals scenarioSession scenarioVault ++
        (vendJWT scenarioEnv scenarioGlobals scenarioSession "vault-1"
          (baselineParams scenarioGlobals scenarioAddressKey scenarioContract)).trace ++
        [.createInvitation "app-token" (invitationPayload scenarioGlobals
          (invitationParams scenarioGlobals scenarioAddressKey scenarioContract scenarioToken)),
         .log (invitedLine scenarioGlobals scenarioToken)],
       .returned ()⟩ := by
  rfl

theorem scenario_invitation_out :
    (inviteParticipant scenarioEnv scenarioGlobals).out = .returned () := by
  rw [scenario_invitation]

theorem scenario_claims :
    jwtClaims scenarioGlobals scenarioOrganization scenarioEnv.now
      (baselineParams scenarioGlobals scenarioAddressKey scenarioContract) = scenarioClaims := by
  rfl

set_option maxRecDepth 1000000 in
theorem scenario_claims_text : jsonMarshal (JSON.obj scenarioClaims) = toBytes scenarioClaimsText := by
  decide

theorem scenario_token_eq :
    scenarioToken = stringsJoin [signingInput scenarioGlobals scenarioOrganization
      scenarioEnv.now (baselineParams scenarioGlobals scenarioAddressKey scenarioContract),
      encodeSegment [0, 255, 16]] "." := by
  have h := scenario_token
  rw [vendJWT_run scenarioEnv scenarioGlobals scenarioSession "vault-1"
    (baselineParams scenarioGlobals scenarioAddressKey scenarioContract)
    scenarioSigningKey [] scenarioOrganization "RSA-4096" "00ff10" [0, 255, 16]
    rfl rfl rfl rfl (by decide)] at h
  exact (Outcome.returned.inj h).symm

theorem invitation_token_claims_witness :
    ∃ (token : String) (header middle signature : List Char) (claims baseline : Obj),
      Event.log (invitedLine scenarioGlobals token)
        ∈ (inviteParticipant scenarioEnv scenarioGlobals).trace ∧
      splitChars '.' token.data = [header, middle, signature] ∧
      decodeBase64URL middle = some (jsonMarshal (JSON.obj claims)) ∧
      mapGet claims "sub" = some (JSON.str "a@b.com") ∧
      mapGet claims "baseline" = some (JSON.obj baseline) ∧
      mapGet baseline "workgroup_id" = some (JSON.str "wg-1") ∧
      mapGet baseline "invitor_organization_address" = some (JSON.str "0xABC") ∧
      mapGet baseline "registry_contract_address" = some (JSON.str "0xDEF") := by
  obtain ⟨s, vault, vaults, key, keys, contract, contracts, token, header, middle, signature,
    claims, baseline, -, hk, hc, -, hlog, hsplit, hdec, h1, h2, h3, h4, h5⟩ :=
    invitation_token_claims scenarioEnv scenarioGlobals (by decide) (by decide)
      scenario_invitation_out
  have hkey : key = scenarioAddressKey := by
    have h : [scenarioAddressKey] = key :: keys := Except.ok.inj hk
    exact (List.cons.inj h).1.symm
  have hcontract : contract = scenarioContract := by
    have h : [scenarioContract] = contract :: contracts := hc
    exact (List.cons.inj h).1.symm
  subst hkey hcontract
  exact ⟨token, header, middle, signature, claims, baseline, hlog, hsplit, hdec, h1, h2, h3,
    h4, h5⟩

/-- C4, as stated, fails in the scenario: the organization identifier `org-1` is supplied
and the invitation succeeds, yet the middle segment of the token decodes to the JSON text
`scenarioClaimsText`, the text of `scenarioClaims`, whose `baseline` object holds no
`organization_id`. -/
theorem invitation_token_lacks_organization_id :
    (inviteParticipant scenarioEnv scenarioGlobals).out = .returned () ∧
    scenarioGlobals.organizationID ≠ "" ∧
    Event.log (invitedLine scenarioGlobals scenarioToken)
      ∈ (inviteParticipant scenarioEnv scenarioGlobals).trace ∧
    (∃ header middle signature,
      splitChars '.' scenarioToken.data = [header, middle, signature] ∧
      decodeBase64URL middle = some (toBytes scenarioClaimsText)) ∧
    toBytes scenarioClaimsText = jsonMarshal (JSON.obj scenarioClaims) ∧
    mapGet scenarioClaims "baseline" = some (JSON.obj scenarioBaseline) ∧
    ¬ ("organization_id" ∈ mapKeys scenarioBaseline ↔ scenarioGlobals.organizationID ≠ "") := by
  refine ⟨scenario_invitation_out, by decide, ?_, ?_, scenario_claims_text.symm, rfl, by decide⟩
  · rw [scenario_invitation]
    simp
  · refine ⟨(encodeSegment (jsonMarshal (JSON.obj jwtHeader))).data,
      (encodeSegment (jsonMarshal (JSON.obj (jwtClaims scenarioGlobals scenarioOrganization
        scenarioEnv.now (baselineParams scenarioGlobals scenarioAddressKey
          scenarioContract))))).data,
      (encodeSegment [0, 255, 16]).data, ?_, ?_⟩
    · rw [scenario_token_eq]
      exact token_split _ _ _ _ _
    · rw [← scenario_claims_text, ← scenario_claims]
      exact decodeBase64URL_encodeSegment _

/-- C4, amended: after every invitation that succeeds, the `baseline` object of the claim
set encoded in the middle segment of the token has exactly the keys
`invitor_organization_address`, `registry_contract_address` and `workgroup_id`; it holds
neither `organization_id` nor `organization_name`, whether or not these were supplied.
The reserved NATS claims key is taken to differ from `baseline`. -/
theorem invitation_token_baseline_keys (env : Env) (g : Globals)
    (hbaseline : g.jwtNatsClaimsKey ≠ "baseline")
    (hok : (inviteParticipant env g).out = .returned ()) :
    ∃ (token : String) (header middle signature : List Char) (claims baseline : Obj),
      Event.log (invitedLine g token) ∈ (inviteParticipant env g).trace ∧
      splitChars '.' token.data = [header, middle, signature] ∧
      decodeBase64URL middle = some (jsonMarshal (JSON.obj claims)) ∧
      mapGet claims "baseline" = some (JSON.obj baseline) ∧
      mapKeys baseline =
        ["invitor_organization_address", "registry_contract_address", "workgroup_id"] ∧
      "organization_id" ∉ mapKeys baseline ∧
      "organization_name" ∉ mapKeys baseline := by
  obtain ⟨s1, s, vault, vaults, key, keys, contract, contracts, token, -, -, -, -, -, hj,
    -, hr⟩ := inviteParticipant_returned_inv env g hok
  obtain ⟨-, -, org, -, -, bs, -, -, -, -, -, htok, -⟩ :=
    vendJWT_returned_inv env g s vault.id (baselineParams g key contract) token hj
  refine ⟨token, (encodeSegment (jsonMarshal (JSON.obj jwtHeader))).data,
    (encodeSegment (jsonMarshal
      (JSON.obj (jwtClaims g org env.now (baselineParams g key contract))))).data,
    (encodeSegment bs).data, jwtClaims g org env.now (baselineParams g key contract),
    baselineParams g key contract, ?_, ?_, ?_, ?_, rfl, ?_, ?_⟩
  · rw [hr]
    simp
  · rw [htok]
    exact token_split g org env.now _ bs
  · exact decodeBase64URL_encodeSegment _
  · rw [jwtClaims_get _ _ _ _ _ hbaseline]
    rfl
  · simp [mapKeys, baselineParams]
  · simp [mapKeys, baselineParams]

theorem invitation_token_baseline_keys_witness :
    ∃ (token : String) (header middle signature : List Char) (claims baseline : Obj),
      Event.log (invitedLine scenarioGlobals token)
        ∈ (inviteParticipant scenarioEnv scenarioGlobals).trace ∧
      splitChars '.' token.data = [header, middle, signature] ∧
      decodeBase64URL middle = some (jsonMarshal (JSON.obj claims)) ∧
      mapGet claims "baseline" = some (JSON.obj baseline) ∧
      mapKeys baseline =
        ["invitor_organization_address", "registry_contract_address", "workgroup_id"] ∧
      "organization_id" ∉ mapKeys baseline ∧
      "organization_name" ∉ mapKeys baseline :=
  invitation_token_baseline_keys scenarioEnv scenarioGlobals (by decide)
    scenario_invitation_out

/-! ## The NATS claims -/

theorem noEmptyContainer_stringsJSON (x : String) (xs : List String) :
    noEmptyContainer (stringsJSON (x :: xs)) = true := by
  induction xs generalizing x with
  | nil => simp [stringsJSON, noEmptyContainer]
  | cons y ys ih =>
    have h := ih y
    simp only [stringsJSON, List.map_cons] at h ⊢
    simp [noEmptyContainer, h]

theorem subjectPermissions_spec (allow deny : List String) :
    (subjectPermissions allow deny = none ↔ allow = [] ∧ deny = []) ∧
    ∀ p, subjectPermissions allow deny = some p →
      (allow ≠ [] ∨ deny ≠ []) ∧ p ≠ [] ∧
      (∀ k ∈ mapKeys p, k ∈ ["allow", "deny"]) ∧
      (∀ w, mapGet p "allow" = some w → allow ≠ [] ∧ w = stringsJSON allow) ∧
      (∀ w, mapGet p "deny" = some w → deny ≠ [] ∧ w = stringsJSON deny) ∧
      noEmptyContainer (JSON.obj p) = true := by
  rcases allow with _ | ⟨a, as⟩ <;> rcases deny with _ | ⟨d, ds⟩ <;>
    simp [subjectPermissions, mapSet, mapGet, List.lookup, mapKeys, noEmptyContainer,
      noEmptyContainer_stringsJSON]
  intro k x
  tauto

theorem responsePermissions_spec (responsesMax responsesTTL : Option Int) :
    (responsePermissions responsesMax responsesTTL = none ↔
      responsesMax = none ∧ responsesTTL = none) ∧
    ∀ p, responsePermissions responsesMax responsesTTL = some p →
      (responsesMax ≠ none ∨ responsesTTL ≠ none) ∧ p ≠ [] ∧
      (∀ k ∈ mapKeys p, k ∈ ["max", "ttl"]) ∧
      (∀ w, mapGet p "max" = some w → ∃ n, responsesMax = some n ∧ w = JSON.num n) ∧
      (∀ w, mapGet p "ttl" = some w → ∃ n, responsesTTL = some n ∧ w = JSON.num n) ∧
      noEmptyContainer (JSON.obj p) = true := by
  rcases responsesMax with _ | rm <;> rcases responsesTTL with _ | rt <;>
    simp [responsePermissions, mapSet, mapGet, List.lookup, mapKeys, noEmptyContainer]
  intro k x
  tauto

theorem permissionsOf_spec (a b c : Option Obj)
    (ha : ∀ p, a = some p → noEmptyContainer (JSON.obj p) = true)
    (hb : ∀ p, b = some p → noEmptyContainer (JSON.obj p) = true)
    (hc : ∀ p, c = some p → noEmptyContainer (JSON.obj p) = true) :
    (permissionsOf a b c = none ↔ a = none ∧ b = none ∧ c = none) ∧
    ∀ m, permissionsOf a b c = some m →
      m ≠ [] ∧
      (∀ k ∈ mapKeys m, k ∈ ["publish", "subscribe", "responses"]) ∧
      (∀ v, mapGet m "publish" = some v → ∃ p, a = some p ∧ v = JSON.obj p) ∧
      (∀ v, mapGet m "subscribe" = some v → ∃ p, b = some p ∧ v = JSON.obj p) ∧
      (∀ v, mapGet m "responses" = some v → ∃ p, c = some p ∧ v = JSON.obj p) ∧
      noEmptyContainer (JSON.obj m) = true := by
  rcases a with _ | a <;> rcases b with _ | b <;> rcases c with _ | c <;>
    simp [permissionsOf, mapSet, mapGet, List.lookup, mapKeys, noEmptyContainer] <;>
    simp_all <;>
    intro k x <;> tauto

/-- C5: for every choice of the six policy values, the assembly of `encodeJWTNatsClaims`
gives nil exactly when the four lists are empty and both response values are unset.
When it gives a map, that map is `permissions` over a non-empty object whose keys are
among `publish`, `subscribe` and `responses`; each of these is there only for a part that
has an entry, and is then a non-empty object of `allow` and `deny` (or `max` and `ttl`)
entries, each there only when its list is non-empty (or its value set); no array or map
in the result is empty. -/
theorem assembleNatsClaims_omission (publishAllow publishDeny subscribeAllow subscribeDeny :
    List String) (responsesMax responsesTTL : Option Int) :
    (assembleNatsClaims publishAllow publishDeny subscribeAllow subscribeDeny responsesMax
        responsesTTL).2 = none ∧
    ((assembleNatsClaims publishAllow publishDeny subscribeAllow subscribeDeny responsesMax
        responsesTTL).1 = none ↔
      publishAllow = [] ∧ publishDeny = [] ∧ subscribeAllow = [] ∧ subscribeDeny = [] ∧
        responsesMax = none ∧ responsesTTL = none) ∧
    ∀ natsClaims,
      (assembleNatsClaims publishAllow publishDeny subscribeAllow subscribeDeny responsesMax
        responsesTTL).1 = some natsClaims →
      ∃ permissions, natsClaims = [("permissions", JSON.obj permissions)] ∧
        permissions ≠ [] ∧
        (∀ k ∈ mapKeys permissions, k ∈ ["publish", "subscribe", "responses"]) ∧
        (∀ v, mapGet permissions "publish" = some v →
          (publishAllow ≠ [] ∨ publishDeny ≠ []) ∧
          ∃ publish, v = JSON.obj publish ∧ publish ≠ [] ∧
            (∀ k ∈ mapKeys publish, k ∈ ["allow", "deny"]) ∧
            (∀ w, mapGet publish "allow" = some w →
              publishAllow ≠ [] ∧ w = stringsJSON publishAllow) ∧
            (∀ w, mapGet publish "deny" = some w →
              publishDeny ≠ [] ∧ w = stringsJSON publishDeny)) ∧
        (∀ v, mapGet permissions "subscribe" = some v →
          (subscribeAllow ≠ [] ∨ subscribeDeny ≠ []) ∧
          ∃ subscribe, v = JSON.obj subscribe ∧ subscribe ≠ [] ∧
            (∀ k ∈ mapKeys subscribe, k ∈ ["allow", "deny"]) ∧
            (∀ w, mapGet subscribe "allow" = some w →
              subscribeAllow ≠ [] ∧ w = stringsJSON subscribeAllow) ∧
            (∀ w, mapGet subscribe "deny" = some w →
              subscribeDeny ≠ [] ∧ w = stringsJSON subscribeDeny)) ∧
        (∀ v, mapGet permissions "responses" = some v →
          (responsesMax ≠ none ∨ responsesTTL ≠ none) ∧
          ∃ responses, v = JSON.obj responses ∧ responses ≠ [] ∧
            (∀ k ∈ mapKeys responses, k ∈ ["max", "ttl"]) ∧
            (∀ w, mapGet responses "max" = some w →
              ∃ n, responsesMax = some n ∧ w = JSON.num n) ∧
            (∀ w, mapGet responses "ttl" = some w →
              ∃ n, responsesTTL = some n ∧ w = JSON.num n)) ∧
        noEmptyContainer (JSON.obj natsClaims) = true := by
  obtain ⟨hpn, hp⟩ := subjectPermissions_spec publishAllow publishDeny
  obtain ⟨hsn, hs⟩ := subjectPermissions_spec subscribeAllow subscribeDeny
  obtain ⟨hrn, hr⟩ := responsePermissions_spec responsesMax responsesTTL
  obtain ⟨hmn, hm⟩ := permissionsOf_spec (subjectPermissions publishAllow publishDeny)
    (subjectPermissions subscribeAllow subscribeDeny)
    (responsePermissions responsesMax responsesTTL)
    (fun p h => (hp p h).2.2.2.2.2) (fun p h => (hs p h).2.2.2.2.2)
    (fun p h => (hr p h).2.2.2.2.2)
  refine ⟨rfl, ?_, ?_⟩
  · have h1 : (assembleNatsClaims publishAllow publishDeny subscribeAllow subscribeDeny
        responsesMax responsesTTL).1 = none ↔
        permissionsOf (subjectPermissions publishAllow publishDeny)
          (subjectPermissions subscribeAllow subscribeDeny)
          (responsePermissions responsesMax responsesTTL) = none := by
      simp only [assembleNatsClaims]
      cases permissionsOf (subjectPermissions publishAllow publishDeny)
        (subjectPermissions subscribeAllow subscribeDeny)
        (responsePermissions responsesMax responsesTTL) <;> simp
    rw [h1, hmn, hpn, hsn, hrn]
    tauto
  · intro natsClaims hnats
    simp only [assembleNatsClaims] at hnats
    rcases hperm : permissionsOf (subjectPermissions publishAllow publishDeny)
      (subjectPermissions subscribeAllow subscribeDeny)
      (responsePermissions responsesMax responsesTTL) with _ | permissions
    · rw [hperm] at hnats
      simp at hnats
    · rw [hperm] at hnats
      simp only [Option.some.injEq] at hnats
      obtain ⟨hne, hkeys, hpub, hsub, hres, hcont⟩ := hm permissions hperm
      refine ⟨permissions, hnats.symm, hne, hkeys, ?_, ?_, ?_, ?_⟩
      · intro v hv
        obtain ⟨p, hpe, rfl⟩ := hpub v hv
        obtain ⟨h1, h2, h3, h4, h5, -⟩ := hp p hpe
        exact ⟨h1, p, rfl, h2, h3, h4, h5⟩
      · intro v hv
        obtain ⟨p, hpe, rfl⟩ := hsub v hv
        obtain ⟨h1, h2, h3, h4, h5, -⟩ := hs p hpe
        exact ⟨h1, p, rfl, h2, h3, h4, h5⟩
      · intro v hv
        obtain ⟨p, hpe, rfl⟩ := hres v hv
        obtain ⟨h1, h2, h3, h4, h5, -⟩ := hr p hpe
        exact ⟨h1, p, rfl, h2, h3, h4, h5⟩
      · rw [← hnats]
        simp [noEmptyContainer, hcont]

theorem assembleNatsClaims_omission_witness :
    (assembleNatsClaims ["baseline.>"] [] [] ["private.*"] (some 3) none).2 = none ∧
    ((assembleNatsClaims ["baseline.>"] [] [] ["private.*"] (some 3) none).1 = none ↔
      ["baseline.>"] = [] ∧ ([] : List String) = [] ∧ ([] : List String) = [] ∧
        ["private.*"] = [] ∧ some (3 : Int) = none ∧ (none : Option Int) = none) ∧
    ∀ natsClaims,
      (assembleNatsClaims ["baseline.>"] [] [] ["private.*"] (some 3) none).1
        = some natsClaims →
      ∃ permissions, natsClaims = [("permissions", JSON.obj permissions)] ∧
        permissions ≠ [] ∧
        (∀ k ∈ mapKeys permissions, k ∈ ["publish", "subscribe", "responses"]) ∧
        (∀ v, mapGet permissions "publish" = some v →
          (["baseline.>"] ≠ [] ∨ ([] : List String) ≠ []) ∧
          ∃ publish, v = JSON.obj publish ∧ publish ≠ [] ∧
            (∀ k ∈ mapKeys publish, k ∈ ["allow", "deny"]) ∧
            (∀ w, mapGet publish "allow" = some w →
              ["baseline.>"] ≠ [] ∧ w = stringsJSON ["baseline.>"]) ∧
            (∀ w, mapGet publish "deny" = some w →
              ([] : List String) ≠ [] ∧ w = stringsJSON [])) ∧
        (∀ v, mapGet permissions "subscribe" = some v →
          (([] : List String) ≠ [] ∨ ["private.*"] ≠ []) ∧
          ∃ subscribe, v = JSON.obj subscribe ∧ subscribe ≠ [] ∧
            (∀ k ∈ mapKeys subscribe, k ∈ ["allow", "deny"]) ∧
            (∀ w, mapGet subscribe "allow" = some w →
              ([] : List String) ≠ [] ∧ w = stringsJSON []) ∧
            (∀ w, mapGet subscribe "deny" = some w →
              ["private.*"] ≠ [] ∧ w = stringsJSON ["private.*"])) ∧
        (∀ v, mapGet permissions "responses" = some v →
          (some (3 : Int) ≠ none ∨ (none : Option Int) ≠ none) ∧
          ∃ responses, v = JSON.obj responses ∧ responses ≠ [] ∧
            (∀ k ∈ mapKeys responses, k ∈ ["max", "ttl"]) ∧
            (∀ w, mapGet responses "max" = some w →
              ∃ n, some (3 : Int) = some n ∧ w = JSON.num n) ∧
            (∀ w, mapGet responses "ttl" = some w →
              ∃ n, (none : Option Int) = some n ∧ w = JSON.num n)) ∧
        noEmptyContainer (JSON.obj natsClaims) = true :=
  assembleNatsClaims_omission ["baseline.>"] [] [] ["private.*"] (some 3) none

/-- C6: `encodeJWTNatsClaims` returns a nil error and exactly the object
`defaultNatsClaims`, which has a `publish` entry that allows `baseline.>` and has no
`deny`, and has no `subscribe` and no `responses` entry; so the merge of `vendJWT` stores
this object in any claims map under the reserved NATS claims key, and the claims of every
signing request `vendJWT` makes hold it there. -/
theorem encodeJWTNatsClaims_default :
    encodeJWTNatsClaims = (some defaultNatsClaims, none) ∧
    (∃ permissions publish,
      defaultNatsClaims = [("permissions", JSON.obj permissions)] ∧
      permissions = [("publish", JSON.obj publish)] ∧
      publish = [("allow", JSON.arr [JSON.str "baseline.>"])] ∧
      mapGet publish "deny" = none ∧
      mapGet permissions "subscribe" = none ∧
      mapGet permissions "responses" = none) ∧
    (∀ (g : Globals) (claims : Obj),
      mapGet (mergeNatsClaims g claims encodeJWTNatsClaims.1) g.jwtNatsClaimsKey
        = some (JSON.obj defaultNatsClaims)) ∧
    (∀ (env : Env) (g : Globals) (s : Session) (vaultID : String) (params : Obj)
      (tok vid kid msg : String) (opts : Obj),
      Event.signMessage tok vid kid msg opts ∈ (vendJWT env g s vaultID params).trace →
      ∃ (org : Organization) (claims : Obj),
        env.getOrganizationDetails s.organizationAccessToken g.organizationID [] = .ok org ∧
        claims = mergeNatsClaims g (baseClaims g org env.now params) (some defaultNatsClaims) ∧
        mapGet claims g.jwtNatsClaimsKey = some (JSON.obj defaultNatsClaims) ∧
        msg = hexEncodeToString (toBytes (stringsJoin
          [encodeSegment (jsonMarshal (JSON.obj jwtHeader)),
           encodeSegment (jsonMarshal (JSON.obj claims))] "."))) := by
  refine ⟨rfl, ⟨_, _, rfl, rfl, rfl, rfl, rfl, rfl⟩, ?_, ?_⟩
  · intro g claims
    exact mapGet_mapSet_self _ _ _
  · intro env g s vaultID params tok vid kid msg opts hmem
    obtain ⟨key, rest, org, spec, -, ho, -, -, -, -, hmsg, -⟩ :=
      vendJWT_sign_inv env g s vaultID params tok vid kid msg opts hmem
    exact ⟨org, _, ho, rfl, mapGet_mapSet_self _ _ _, hmsg⟩

theorem encodeJWTNatsClaims_default_witness :
    ∃ (org : Organization) (claims : Obj),
      scenarioEnv.getOrganizationDetails scenarioSession.organizationAccessToken
        scenarioGlobals.organizationID [] = .ok org ∧
      claims = mergeNatsClaims scenarioGlobals
        (baseClaims scenarioGlobals org scenarioEnv.now
          (baselineParams scenarioGlobals scenarioAddressKey scenarioContract))
        (some defaultNatsClaims) ∧
      mapGet claims scenarioGlobals.jwtNatsClaimsKey = some (JSON.obj defaultNatsClaims) ∧
      hexEncodeToString (toBytes (signingInput scenarioGlobals scenarioOrganization
        scenarioEnv.now (baselineParams scenarioGlobals scenarioAddressKey scenarioContract))) =
        hexEncodeToString (toBytes (stringsJoin
          [encodeSegment (jsonMarshal (JSON.obj jwtHeader)),
           encodeSegment (jsonMarshal (JSON.obj claims))] ".")) :=
  encodeJWTNatsClaims_default.2.2.2 scenarioEnv scenarioGlobals scenarioSession "vault-1"
    (baselineParams scenarioGlobals scenarioAddressKey scenarioContract)
    "org-token" "vault-1" "key-2"
    (hexEncodeToString (toBytes (signingInput scenarioGlobals scenarioOrganization
      scenarioEnv.now (baselineParams scenarioGlobals scenarioAddressKey scenarioContract))))
    (signOptions "RSA-4096") (List.Mem.tail _ (List.Mem.tail _ (List.Mem.head _)))

/-! ## Failures -/

theorem vendJWT_no_keys (env : Env) (g : Globals) (s : Session) (vaultID : String)
    (params : Obj)
    (hempty : env.listKeys s.organizationAccessToken vaultID (keySpecFilter "RSA-4096")
      = .ok []) :
    vendJWT env g s vaultID params =
      ⟨[.listKeys s.organizationAccessToken vaultID (keySpecFilter "RSA-4096"),
        .log "failed to resolve RSA-4096 key for organization"], .exited 1⟩ := by
  rcases vendJWT_cases env g s vaultID params with
    ⟨err, hk, -⟩ | ⟨-, hr⟩ | ⟨key, rest, hk, -⟩
  · rw [hempty] at hk
    cases hk
  · exact hr
  · rw [hempty] at hk
    cases hk

theorem vendJWT_listKeys_inv (env : Env) (g : Globals) (s : Session) (vaultID : String)
    (params : Obj) (tok vid : String) (request : Obj)
    (hmem : Event.listKeys tok vid request ∈ (vendJWT env g s vaultID params).trace) :
    tok = s.organizationAccessToken ∧ vid = vaultID ∧ request = keySpecFilter "RSA-4096" := by
  rcases vendJWT_cases env g s vaultID params with
    ⟨err, hk, hr⟩ | ⟨hk, hr⟩ | ⟨key, rest, hk, ⟨err, ho, hr⟩ | ⟨org, ho, ⟨hs, hr⟩ |
      ⟨spec, hs, ⟨err, hsg, hr⟩ | ⟨hsg, hr⟩ | ⟨sig, hsg, ⟨hx, hr⟩ | ⟨bs, hx, hr⟩⟩⟩⟩⟩
  all_goals rw [hr] at hmem
  all_goals simp at hmem
  all_goals exact hmem

theorem vendJWT_no_createInvitation (env : Env) (g : Globals) (s : Session) (vaultID : String)
    (params : Obj) :
    ∀ e ∈ (vendJWT env g s vaultID params).trace, e.isCreateInvitation = false := by
  rcases vendJWT_cases env g s vaultID params with
    ⟨err, hk, hr⟩ | ⟨hk, hr⟩ | ⟨key, rest, hk, ⟨err, ho, hr⟩ | ⟨org, ho, ⟨hs, hr⟩ |
      ⟨spec, hs, ⟨err, hsg, hr⟩ | ⟨hsg, hr⟩ | ⟨sig, hsg, ⟨hx, hr⟩ | ⟨bs, hx, hr⟩⟩⟩⟩⟩
  all_goals rw [hr]
  all_goals simp [Event.isCreateInvitation]

/-- C7: when a run of `inviteParticipant` lists the RSA-4096 keys and the listing comes
back empty, the run logs that no RSA-4096 key was resolved and ends in `os.Exit(1)`, and
its events hold no call of `ident.GetOrganizationDetails`, of `vault.SignMessage` or of
`ident.CreateInvitation`. -/
theorem no_signing_key_aborts (env : Env) (g : Globals) (tok vid : String)
    (hcall : Event.listKeys tok vid (keySpecFilter "RSA-4096") ∈ (inviteParticipant env g).trace)
    (hempty : env.listKeys tok vid (keySpecFilter "RSA-4096") = .ok []) :
    (inviteParticipant env g).out = .exited 1 ∧
    (inviteParticipant env g).trace.getLast? =
      some (.log "failed to resolve RSA-4096 key for organization") ∧
    (inviteParticipant env g).trace.filter
      (fun e => e.isGetOrganizationDetails || e.isSignMessage || e.isCreateInvitation) = [] := by
  have hkey : keySpecFilter "RSA-4096" ≠ keySpecFilter "secp256k1" := by
    simp [keySpecFilter]
  rcases inviteParticipant_cases env g with
    ⟨code, _, hr⟩ | ⟨reason, _, hr⟩ | ⟨s1, ha, ⟨code, _, hr⟩ | ⟨reason, _, hr⟩ | ⟨s, hb,
      ⟨err, _, hr⟩ | ⟨_, hr⟩ | ⟨vault, vaults, hv, ⟨err, _, hr⟩ | ⟨_, hr⟩ | ⟨key, keys, hk,
        ⟨_, hr⟩ | ⟨contract, contracts, hc, ⟨code, hj, hr⟩ | ⟨reason, hj, hr⟩ | ⟨token, hj,
          ⟨err, _, hr⟩ | ⟨hi, hr⟩⟩⟩⟩⟩⟩⟩
  all_goals rw [hr] at hcall
  all_goals simp [listingEvents, hkey] at hcall
  all_goals
    obtain ⟨rfl, rfl, -⟩ := vendJWT_listKeys_inv env g s vault.id _ tok vid _ hcall
    have hrun := vendJWT_no_keys env g s vault.id (baselineParams g key contract) hempty
    rw [hrun] at hj hr
    simp at hj
  subst hj
  rw [hr]
  simp [listingEvents, List.filter, Event.isGetOrganizationDetails, Event.isSignMessage,
    Event.isCreateInvitation]

theorem no_signing_key_aborts_witness :
    (inviteParticipant noSigningKeyEnv scenarioGlobals).out = .exited 1 ∧
    (inviteParticipant noSigningKeyEnv scenarioGlobals).trace.getLast? =
      some (.log "failed to resolve RSA-4096 key for organization") ∧
    (inviteParticipant noSigningKeyEnv scenarioGlobals).trace.filter
      (fun e => e.isGetOrganizationDetails || e.isSignMessage || e.isCreateInvitation) = [] :=
  no_signing_key_aborts noSigningKeyEnv scenarioGlobals "org-token" "vault-1"
    (List.Mem.tail _ (List.Mem.tail _ (List.Mem.tail _ (List.Mem.head _)))) rfl

/-- C8, on the code: when a listing succeeds and is empty, `inviteParticipant` does not
report a resolution error. With no vault, with no secp256k1 key and with no registry
contract, the run ends in the runtime panic of the index expression `vaults[0]`, `keys[0]`
or `contracts[0]`, after the listing calls alone: no line is logged and `os.Exit` is not
reached. -/
theorem empty_listing_panics :
    inviteParticipant noVaultEnv scenarioGlobals =
      ⟨[.listVaults "org-token" (vaultsRequest scenarioGlobals)],
       .panicked "runtime error: index out of range [0] with length 0"⟩ ∧
    inviteParticipant noAddressKeyEnv scenarioGlobals =
      ⟨listingEvents scenarioGlobals scenarioSession scenarioVault,
       .panicked "runtime error: index out of range [0] with length 0"⟩ ∧
    inviteParticipant noContractEnv scenarioGlobals =
      ⟨listingEvents scenarioGlobals scenarioSession scenarioVault,
       .panicked "runtime error: index out of range [0] with length 0"⟩ ∧
    (listingEvents scenarioGlobals scenarioSession scenarioVault).filter Event.isLog = [] :=
  ⟨rfl, rfl, rfl, rfl⟩

theorem contract_listing_error_unread (env : Env) (g : Globals) :
    inviteParticipant env g =
      inviteParticipant
        { env with listContracts := fun token request => ((env.listContracts token request).1, none) }
        g := by
  rfl

set_option maxRecDepth 1000000 in
/-- C9, on the code: an error of `nchain.ListContracts` does not end the run. No run
reads it: a run is the same as with services that return the same contracts and no
error. When the listing returns the contract together with an error, the run goes on as
in the scenario: it signs, calls `ident.CreateInvitation` and returns. When it returns no
contract and an error, the run ends in the runtime panic of `contracts[0]`, and the line
`failed to resolve contract for organization` is not logged. -/
theorem contract_listing_error_is_dropped :
    (∀ (env : Env) (g : Globals),
      inviteParticipant env g =
        inviteParticipant
          { env with
            listContracts := fun token request => ((env.listContracts token request).1, none) }
          g) ∧
    (contractsWithErrorEnv.listContracts "app-token" contractsRequest).2
      = some "nchain: service unavailable" ∧
    inviteParticipant contractsWithErrorEnv scenarioGlobals =
      inviteParticipant scenarioEnv scenarioGlobals ∧
    (inviteParticipant contractsWithErrorEnv scenarioGlobals).out = .returned () ∧
    ((inviteParticipant contractsWithErrorEnv scenarioGlobals).trace.filter
      Event.isSignMessage).length = 1 ∧
    ((inviteParticipant contractsWithErrorEnv scenarioGlobals).trace.filter
      Event.isCreateInvitation).length = 1 ∧
    (failedContractsEnv.listContracts "app-token" contractsRequest).2
      = some "nchain: service unavailable" ∧
    inviteParticipant failedContractsEnv scenarioGlobals =
      ⟨listingEvents scenarioGlobals scenarioSession scenarioVault,
       .panicked "runtime error: index out of range [0] with length 0"⟩ :=
  ⟨contract_listing_error_unread, rfl, rfl, rfl, rfl, rfl, rfl, rfl⟩

/-! ## Dispatch -/

theorem invitationParams_keys (g : Globals) (key : Key) (contract : Contract) (token : String) :
    mapGet (invitationParams g key contract token) "authorized_bearer_token"
      = some (JSON.str token) ∧
    (mapKeys (invitationParams g key contract token)).Nodup ∧
    ∀ k, k ∈ mapKeys (invitationParams g key contract token) ↔
      (k ∈ ["invitor_organization_address", "registry_contract_address", "workgroup_id",
        "authorized_bearer_token"] ∨
      (k = "organization_id" ∧ g.organizationID ≠ "") ∨
      (k = "organization_name" ∧ g.name ≠ "")) := by
  by_cases ho : g.organizationID = "" <;> by_cases hn : g.name = "" <;>
    simp [invitationParams, baselineParams, mapSet, mapGet, List.lookup, mapKeys, ho, hn] <;>
    intro k <;> tauto

/-- C10: in every run of `inviteParticipant` that calls `ident.CreateInvitation`, that
call is the only one of its kind and comes after all events of `vendJWT`, which returned
the token; its payload has `email` equal to the participant email, `application_id` equal
to the workgroup identifier, and a `params` object whose keys are exactly
`invitor_organization_address`, `registry_contract_address`, `workgroup_id` and
`authorized_bearer_token`, with `organization_id` exactly when the organization
identifier is not empty and `organization_name` exactly when the name is not empty; the
value of `authorized_bearer_token` is the token `vendJWT` returned. -/
theorem createInvitation_once_with_token (env : Env) (g : Globals) (tok : String)
    (payload : Obj)
    (hcall : Event.createInvitation tok payload ∈ (inviteParticipant env g).trace) :
    ∃ (s : Session) (vault : Vault) (key : Key) (contract : Contract) (token : String)
      (params : Obj) (last : Event),
      (vendJWT env g s vault.id (baselineParams g key contract)).out = .returned token ∧
      (inviteParticipant env g).trace =
        listingEvents g s vault ++
          (vendJWT env g s vault.id (baselineParams g key contract)).trace ++
          [.createInvitation tok payload, last] ∧
      last.isLog = true ∧
      (inviteParticipant env g).trace.filter Event.isCreateInvitation
        = [.createInvitation tok payload] ∧
      tok = s.applicationAccessToken ∧
      payload = [("application_id", JSON.str g.applicationID), ("email", JSON.str g.email),
        ("params", JSON.obj params)] ∧
      mapGet params "authorized_bearer_token" = some (JSON.str token) ∧
      (mapKeys params).Nodup ∧
      ∀ k, k ∈ mapKeys params ↔
        (k ∈ ["invitor_organization_address", "registry_contract_address", "workgroup_id",
          "authorized_bearer_token"] ∨
        (k = "organization_id" ∧ g.organizationID ≠ "") ∨
        (k = "organization_name" ∧ g.name ≠ "")) := by
  rcases inviteParticipant_cases env g with
    ⟨code, _, hr⟩ | ⟨reason, _, hr⟩ | ⟨s1, ha, ⟨code, _, hr⟩ | ⟨reason, _, hr⟩ | ⟨s, hb,
      ⟨err, _, hr⟩ | ⟨_, hr⟩ | ⟨vault, vaults, hv, ⟨err, _, hr⟩ | ⟨_, hr⟩ | ⟨key, keys, hk,
        ⟨_, hr⟩ | ⟨contract, contracts, hc, ⟨code, hj, hr⟩ | ⟨reason, hj, hr⟩ | ⟨token, hj,
          ⟨err, _, hr⟩ | ⟨hi, hr⟩⟩⟩⟩⟩⟩⟩
  all_goals rw [hr] at hcall
  all_goals simp [listingEvents] at hcall
  all_goals
    have hnone := vendJWT_no_createInvitation env g s vault.id (baselineParams g key contract)
  · exact absurd (hnone _ hcall) (by simp [Event.isCreateInvitation])
  · exact absurd (hnone _ hcall) (by simp [Event.isCreateInvitation])
  all_goals
    have hfilter : (vendJWT env g s vault.id (baselineParams g key contract)).trace.filter
        Event.isCreateInvitation = [] := by
      rw [List.filter_eq_nil_iff]
      intro e he
      simp [hnone e he]
    rcases hcall with hcall | ⟨rfl, rfl⟩
    · exact absurd (hnone _ hcall) (by simp [Event.isCreateInvitation])
    · obtain ⟨h1, h2, h3⟩ := invitationParams_keys g key contract token
      refine ⟨s, vault, key, contract, token, invitationParams g key contract token,
        Event.log _, hj, by rw [hr], rfl, ?_, rfl, rfl, h1, h2, h3⟩
      rw [hr]
      simp only [List.filter_append, hfilter, List.append_nil]
      rfl

theorem createInvitation_once_with_token_witness :
    ∃ (s : Session) (vault : Vault) (key : Key) (contract : Contract) (token : String)
      (params : Obj) (last : Event),
      (vendJWT scenarioEnv scenarioGlobals s vault.id
        (baselineParams scenarioGlobals key contract)).out = .returned token ∧
      (inviteParticipant scenarioEnv scenarioGlobals).trace =
        listingEvents scenarioGlobals s vault ++
          (vendJWT scenarioEnv scenarioGlobals s vault.id
            (baselineParams scenarioGlobals key contract)).trace ++
          [.createInvitation "app-token" (invitationPayload scenarioGlobals
            (invitationParams scenarioGlobals scenarioAddressKey scenarioContract
              scenarioToken)), last] ∧
      last.isLog = true ∧
      (inviteParticipant scenarioEnv scenarioGlobals).trace.filter Event.isCreateInvitation
        = [.createInvitation "app-token" (invitationPayload scenarioGlobals
            (invitationParams scenarioGlobals scenarioAddressKey scenarioContract
              scenarioToken))] ∧
      "app-token" = s.applicationAccessToken ∧
      invitationPayload scenarioGlobals
          (invitationParams scenarioGlobals scenarioAddressKey scenarioContract scenarioToken) =
        [("application_id", JSON.str "wg-1"), ("email", JSON.str "a@b.com"),
          ("params", JSON.obj params)] ∧
      mapGet params "authorized_bearer_token" = some (JSON.str token) ∧
      (mapKeys params).Nodup ∧
      ∀ k, k ∈ mapKeys params ↔
        (k ∈ ["invitor_organization_address", "registry_contract_address", "workgroup_id",
          "authorized_bearer_token"] ∨
        (k = "organization_id" ∧ scenarioGlobals.organizationID ≠ "") ∨
        (k = "organization_name" ∧ scenarioGlobals.name ≠ "")) :=
  createInvitation_once_with_token scenarioEnv scenarioGlobals "app-token"
    (invitationPayload scenarioGlobals
      (invitationParams scenarioGlobals scenarioAddressKey scenarioContract scenarioToken))
    (by rw [scenario_invitation]; simp)

/-! ## Telling two tokens apart -/

theorem char_toNat_lt (c : Char) : c.toNat < 1114112 := by
  rcases c.valid with h | ⟨-, h⟩
  · have : c.toNat < 55296 := h
    omega
  · exact h

theorem utf8EncodeChar_cancel (c d : Char) (r t : List Byte)
    (h : utf8EncodeChar c ++ r = utf8EncodeChar d ++ t) : c = d ∧ r = t := by
  have hc := char_toNat_lt c
  have hd := char_toNat_lt d
  have key : c.toNat = d.toNat ∧ r = t := by
    unfold utf8EncodeChar at h
    simp only at h
    split_ifs at h <;>
      simp only [List.cons_append, List.nil_append, List.cons.injEq, byte, Fin.mk.injEq] at h <;>
      first
        | (exfalso; omega)
        | exact ⟨by omega, by tauto⟩
  refine ⟨?_, key.2⟩
  rw [← Char.ofNat_toNat c, ← Char.ofNat_toNat d, key.1]

theorem utf8EncodeChar_ne_nil (c : Char) : utf8EncodeChar c ≠ [] := by
  unfold utf8EncodeChar
  simp only
  split_ifs <;> simp

theorem utf8_injective : ∀ (a b : List Char),
    a.flatMap utf8EncodeChar = b.flatMap utf8EncodeChar → a = b := by
  intro a
  induction a with
  | nil =>
    intro b h
    cases b with
    | nil => rfl
    | cons d b =>
      simp only [List.flatMap_nil, List.flatMap_cons] at h
      have := utf8EncodeChar_ne_nil d
      cases hd : utf8EncodeChar d with
      | nil => exact absurd hd this
      | cons x xs => rw [hd] at h; cases h
  | cons c a ih =>
    intro b h
    cases b with
    | nil =>
      simp only [List.flatMap_nil, List.flatMap_cons] at h
      have := utf8EncodeChar_ne_nil c
      cases hc : utf8EncodeChar c with
      | nil => exact absurd hc this
      | cons x xs => rw [hc] at h; cases h
    | cons d b =>
      simp only [List.flatMap_cons] at h
      obtain ⟨rfl, h2⟩ := utf8EncodeChar_cancel c d _ _ h
      rw [ih b h2]

theorem jsonMarshal_injective (v w : JSON) (h : jsonMarshal v = jsonMarshal w) :
    marshalText v = marshalText w :=
  utf8_injective _ _ h

theorem encodeSegment_injective (a b : List Byte)
    (h : (encodeSegment a).data = (encodeSegment b).data) : a = b := by
  have h1 := decodeBase64URL_encodeSegment a
  rw [h, decodeBase64URL_encodeSegment b] at h1
  exact (Option.some.inj h1).symm

theorem digitChar_value : ∀ k < 10, (Nat.digitChar k).toNat - 48 = k := by decide

theorem digitChar_ne_minus : ∀ k < 10, Nat.digitChar k ≠ '-' := by decide

theorem toDigitsCore_append (fuel : Nat) : ∀ (n : Nat) (ds : List Char),
    Nat.toDigitsCore 10 fuel n ds = Nat.toDigitsCore 10 fuel n [] ++ ds := by
  induction fuel with
  | zero => intro n ds; simp [Nat.toDigitsCore]
  | succ fuel ih =>
    intro n ds
    simp only [Nat.toDigitsCore]
    split
    · simp
    · rw [ih (n / 10) (Nat.digitChar (n % 10) :: ds), ih (n / 10) [Nat.digitChar (n % 10)]]
      simp

theorem decimalValue_append_singleton (ds : List Char) (c : Char) :
    decimalValue (ds ++ [c]) = decimalValue ds * 10 + (c.toNat - 48) := by
  simp [decimalValue, List.foldl_append]

theorem decimalValue_toDigitsCore (fuel : Nat) : ∀ n, n < fuel →
    decimalValue (Nat.toDigitsCore 10 fuel n []) = n := by
  induction fuel with
  | zero => intro n h; omega
  | succ fuel ih =>
    intro n h
    simp only [Nat.toDigitsCore]
    split
    · rename_i h0
      have hn : n < 10 := by omega
      have hmod : n % 10 = n := by omega
      simp only [decimalValue, List.foldl, hmod]
      rw [digitChar_value n hn]
      omega
    · rename_i h0
      rw [toDigitsCore_append, decimalValue_append_singleton,
        ih (n / 10) (by omega), digitChar_value (n % 10) (Nat.mod_lt _ (by decide))]
      omega

theorem decimalValue_repr (n : Nat) : decimalValue (Nat.repr n).data = n := by
  simp only [Nat.repr, Nat.toDigits, List.asString]
  exact decimalValue_toDigitsCore (n + 1) n (by omega)

theorem toDigitsCore_ne_minus (fuel : Nat) : ∀ (n : Nat) (ds : List Char),
    (∀ c ∈ ds, c ≠ '-') → ∀ c ∈ Nat.toDigitsCore 10 fuel n ds, c ≠ '-' := by
  induction fuel with
  | zero => intro n ds h; simpa [Nat.toDigitsCore] using h
  | succ fuel ih =>
    intro n ds h
    have hd : ∀ c ∈ Nat.digitChar (n % 10) :: ds, c ≠ '-' := by
      intro c hc
      rcases List.mem_cons.1 hc with rfl | hc
      · exact digitChar_ne_minus _ (Nat.mod_lt _ (by decide))
      · exact h c hc
    simp only [Nat.toDigitsCore]
    split
    · exact hd
    · exact ih _ _ hd

theorem repr_ne_minus (n : Nat) : ∀ c ∈ (Nat.repr n).data, c ≠ '-' := by
  simp only [Nat.repr, Nat.toDigits, List.asString]
  exact toDigitsCore_ne_minus _ _ _ (by simp)

theorem toString_int_injective (a b : Int) (h : (toString a).data = (toString b).data) :
    a = b := by
  cases a with
  | ofNat m =>
    cases b with
    | ofNat k =>
      have h' : (Nat.repr m).data = (Nat.repr k).data := h
      have := congrArg decimalValue h'
      rw [decimalValue_repr, decimalValue_repr] at this
      rw [this]
    | negSucc k =>
      have h' : (Nat.repr m).data = '-' :: (Nat.repr (k + 1)).data := h
      exact absurd rfl (repr_ne_minus m '-' (by rw [h']; simp))
  | negSucc m =>
    cases b with
    | ofNat k =>
      have h' : '-' :: (Nat.repr (m + 1)).data = (Nat.repr k).data := h
      exact absurd rfl (repr_ne_minus k '-' (by rw [← h']; simp))
    | negSucc k =>
      have h' : '-' :: (Nat.repr (m + 1)).data = '-' :: (Nat.repr (k + 1)).data := h
      have h2 := congrArg decimalValue (List.cons.inj h').2
      rw [decimalValue_repr, decimalValue_repr] at h2
      have : m = k := by omega
      rw [this]

theorem mapSet_frame (key : String) (val : JSON) (k : String) (hne : key ≠ k) :
    ∀ (A B : Obj), ∃ A' B', ∀ v, mapSet (A ++ (k, v) :: B) key val = A' ++ (k, v) :: B' := by
  intro A
  induction A with
  | nil =>
    intro B
    refine ⟨[], mapSet B key val, fun v => ?_⟩
    simp [mapSet, Ne.symm hne]
  | cons a A ih =>
    intro B
    obtain ⟨k', v'⟩ := a
    by_cases h : k' = key
    · refine ⟨(key, val) :: A, B, fun v => ?_⟩
      simp [mapSet, h]
    · obtain ⟨A', B', hAB⟩ := ih B
      refine ⟨(k', v') :: A', B', fun v => ?_⟩
      simp [mapSet, h, hAB v]

theorem marshalMembers_append (A B : Obj) (k : String) (v : JSON) :
    marshalMembers (A ++ (k, v) :: B) =
      marshalMembers A ++ (k, marshalText v) :: marshalMembers B := by
  induction A with
  | nil => simp [marshalMembers]
  | cons a A ih =>
    obtain ⟨k', v'⟩ := a
    simp [marshalMembers, ih]

theorem insertMember_frame_self (k : String) :
    ∀ S : List (String × List Char), ∃ S1 S2, ∀ t, insertMember (k, t) S = S1 ++ (k, t) :: S2 := by
  intro S
  induction S with
  | nil => exact ⟨[], [], fun t => rfl⟩
  | cons n S ih =>
    by_cases h : keyLe k.data n.1.data = true
    · exact ⟨[], n :: S, fun t => by simp [insertMember, h]⟩
    · obtain ⟨S1, S2, hS⟩ := ih
      exact ⟨n :: S1, S2, fun t => by simp [insertMember, h, hS t]⟩

theorem insertMember_frame (a : String × List Char) (k : String) :
    ∀ A B : List (String × List Char), ∃ A' B', ∀ t,
      insertMember a (A ++ (k, t) :: B) = A' ++ (k, t) :: B' := by
  intro A
  induction A with
  | nil =>
    intro B
    by_cases h : keyLe a.1.data k.data = true
    · exact ⟨[a], B, fun t => by simp [insertMember, h]⟩
    · exact ⟨[], insertMember a B, fun t => by simp [insertMember, h]⟩
  | cons n A ih =>
    intro B
    by_cases h : keyLe a.1.data n.1.data = true
    · exact ⟨a :: n :: A, B, fun t => by simp [insertMember, h]⟩
    · obtain ⟨A', B', hAB⟩ := ih B
      exact ⟨n :: A', B', fun t => by simp [insertMember, h, hAB t]⟩

theorem sortMembers_frame (k : String) :
    ∀ A B : List (String × List Char), ∃ A' B', ∀ t,
      sortMembers (A ++ (k, t) :: B) = A' ++ (k, t) :: B' := by
  intro A
  induction A with
  | nil =>
    intro B
    obtain ⟨S1, S2, hS⟩ := insertMember_frame_self k (sortMembers B)
    exact ⟨S1, S2, fun t => by simp [sortMembers, hS t]⟩
  | cons a A ih =>
    intro B
    obtain ⟨A', B', hAB⟩ := ih B
    obtain ⟨A'', B'', hAB'⟩ := insertMember_frame a k A' B'
    exact ⟨A'', B'', fun t => by simp [sortMembers, hAB t, hAB' t]⟩

theorem joinChars_cons (sep a : List Char) (L : List (List Char)) (hL : L ≠ []) :
    joinChars sep (a :: L) = a ++ sep ++ joinChars sep L := by
  cases L with
  | nil => exact absurd rfl hL
  | cons b rest => rfl

theorem joinChars_frame (sep : List Char) :
    ∀ X Y : List (List Char), ∃ pre post, ∀ m, joinChars sep (X ++ m :: Y) = pre ++ m ++ post := by
  intro X
  induction X with
  | nil =>
    intro Y
    cases Y with
    | nil => exact ⟨[], [], fun m => by simp [joinChars]⟩
    | cons b rest =>
      exact ⟨[], sep ++ joinChars sep (b :: rest), fun m => by simp [joinChars]⟩
  | cons a X ih =>
    intro Y
    obtain ⟨pre, post, h⟩ := ih Y
    refine ⟨a ++ sep ++ pre, post, fun m => ?_⟩
    rw [List.cons_append, joinChars_cons _ _ _ (by simp), h m]
    simp

theorem marshalText_obj_frame (k : String) (A B : Obj) :
    ∃ pre post, ∀ v, marshalText (JSON.obj (A ++ (k, v) :: B)) = pre ++ marshalText v ++ post := by
  obtain ⟨A', B', hs⟩ := sortMembers_frame k (marshalMembers A) (marshalMembers B)
  obtain ⟨pre, post, hj⟩ := joinChars_frame [',']
    (A'.map fun m => quoteString m.1 ++ ':' :: m.2) (B'.map fun m => quoteString m.1 ++ ':' :: m.2)
  refine ⟨'{' :: (pre ++ (quoteString k ++ [':'])), post ++ ['}'], fun v => ?_⟩
  simp only [marshalText, marshalMembers_append, hs, List.map_append, List.map_cons, hj]
  simp

theorem jwtClaims_text_frame (g : Globals) (org : Organization) (params : Obj)
    (hiat : g.jwtNatsClaimsKey ≠ "iat") :
    ∃ pre post, ∀ issuedAt : Int,
      marshalText (JSON.obj (jwtClaims g org issuedAt params))
        = pre ++ (toString issuedAt).data ++ post := by
  obtain ⟨A, B, hAB⟩ := mapSet_frame g.jwtNatsClaimsKey (JSON.obj defaultNatsClaims) "iat" hiat
    [("aud", mapIndex org.metadata "messaging_endpoint")]
    [("iss", JSON.str ("organization:" ++ g.organizationID)), ("sub", JSON.str g.email),
     ("baseline", JSON.obj params)]
  obtain ⟨pre, post, h⟩ := marshalText_obj_frame "iat" A B
  refine ⟨pre, post, fun issuedAt => ?_⟩
  have hc : jwtClaims g org issuedAt params = A ++ ("iat", JSON.num issuedAt) :: B := by
    rw [← hAB]
    rfl
  rw [hc, h]
  simp [marshalText]

theorem token_eq_iff (g : Globals) (org : Organization) (params : Obj)
    (hiat : g.jwtNatsClaimsKey ≠ "iat") (n₁ n₂ : Int) (b₁ b₂ : List Byte) :
    stringsJoin [signingInput g org n₁ params, encodeSegment b₁] "." =
      stringsJoin [signingInput g org n₂ params, encodeSegment b₂] "." ↔
    n₁ = n₂ ∧ b₁ = b₂ := by
  constructor
  · intro h
    have hs := congrArg (fun t : String => splitChars '.' t.data) h
    simp only [token_split] at hs
    have hmid := (List.cons.inj (List.cons.inj hs).2).1
    have hsig := (List.cons.inj (List.cons.inj (List.cons.inj hs).2).2).1
    have htext := jsonMarshal_injective _ _ (encodeSegment_injective _ _ hmid)
    obtain ⟨pre, post, hframe⟩ := jwtClaims_text_frame g org params hiat
    rw [hframe n₁, hframe n₂, List.append_assoc, List.append_assoc] at htext
    have hdigits := List.append_cancel_right (List.append_cancel_left htext)
    exact ⟨toString_int_injective _ _ hdigits, encodeSegment_injective _ _ hsig⟩
  · rintro ⟨rfl, rfl⟩
    rfl

/-- C11, as stated, fails: the scenario run twice within the same second, with the signer
returning the same signature for the same request, gives two successful invitations for
the same participant, organization and workgroup that carry the same token. -/
theorem repeated_invitation_same_token :
    ∃ token₁ token₂ : String,
      (inviteParticipant scenarioEnv scenarioGlobals).out = .returned () ∧
      Event.log (invitedLine scenarioGlobals token₁)
        ∈ (inviteParticipant scenarioEnv scenarioGlobals).trace ∧
      (inviteParticipant sameSecondEnv scenarioGlobals).out = .returned () ∧
      Event.log (invitedLine scenarioGlobals token₂)
        ∈ (inviteParticipant sameSecondEnv scenarioGlobals).trace ∧
      token₁ = token₂ := by
  have h : inviteParticipant sameSecondEnv scenarioGlobals
      = inviteParticipant scenarioEnv scenarioGlobals := rfl
  refine ⟨scenarioToken, scenarioToken, scenario_invitation_out, ?_, ?_, ?_, rfl⟩
  · rw [scenario_invitation]
    simp
  · rw [h]
    exact scenario_invitation_out
  · rw [h, scenario_invitation]
    simp

/-- C11, amended: two successful invitations for the same participant, organization and
workgroup, with the same answers of the authorization, listing and organization lookup
services, carry different tokens exactly when their issued-at times differ in whole Unix
seconds or the signer returned different signature bytes; issued within the same second
with the same signature bytes they carry the same token. The reserved NATS claims key is
taken to differ from `iat`. -/
theorem tokens_differ_iff (env₁ env₂ : Env) (g : Globals)
    (hiat : g.jwtNatsClaimsKey ≠ "iat")
    (happ : env₁.authorizeApplicationContext = env₂.authorizeApplicationContext)
    (horgctx : env₁.authorizeOrganizationContext = env₂.authorizeOrganizationContext)
    (hvaults : env₁.listVaults = env₂.listVaults)
    (hkeys : env₁.listKeys = env₂.listKeys)
    (hcontracts : env₁.listContracts = env₂.listContracts)
    (hdetails : env₁.getOrganizationDetails = env₂.getOrganizationDetails)
    (hok₁ : (inviteParticipant env₁ g).out = .returned ())
    (hok₂ : (inviteParticipant env₂ g).out = .returned ()) :
    ∃ (token₁ token₂ : String) (bs₁ bs₂ : List Byte),
      Event.log (invitedLine g token₁) ∈ (inviteParticipant env₁ g).trace ∧
      Event.log (invitedLine g token₂) ∈ (inviteParticipant env₂ g).trace ∧
      (∃ tok vid kid msg opts sig,
        Event.signMessage tok vid kid msg opts ∈ (inviteParticipant env₁ g).trace ∧
        env₁.signMessage tok vid kid msg opts = .ok ⟨some sig⟩ ∧
        hexDecodeString sig = some bs₁) ∧
      (∃ tok vid kid msg opts sig,
        Event.signMessage tok vid kid msg opts ∈ (inviteParticipant env₂ g).trace ∧
        env₂.signMessage tok vid kid msg opts = .ok ⟨some sig⟩ ∧
        hexDecodeString sig = some bs₂) ∧
      (token₁ ≠ token₂ ↔ env₁.now ≠ env₂.now ∨ bs₁ ≠ bs₂) := by
  obtain ⟨a₁, s₁, vault₁, vaults₁, key₁, keys₁, contract₁, contracts₁, token₁, ha₁, hb₁, hv₁,
    hk₁, hc₁, hj₁, -, hr₁⟩ := inviteParticipant_returned_inv env₁ g hok₁
  obtain ⟨a₂, s₂, vault₂, vaults₂, key₂, keys₂, contract₂, contracts₂, token₂, ha₂, hb₂, hv₂,
    hk₂, hc₂, hj₂, -, hr₂⟩ := inviteParticipant_returned_inv env₂ g hok₂
  rw [happ, ha₂] at ha₁
  obtain rfl : a₂ = a₁ := Outcome.returned.inj ha₁
  rw [horgctx, hb₂] at hb₁
  obtain rfl : s₂ = s₁ := Outcome.returned.inj hb₁
  rw [hvaults, hv₂] at hv₁
  obtain rfl : vault₂ = vault₁ := (List.cons.inj (Except.ok.inj hv₁)).1
  rw [hkeys, hk₂] at hk₁
  obtain rfl : key₂ = key₁ := (List.cons.inj (Except.ok.inj hk₁)).1
  rw [hcontracts, hc₂] at hc₁
  obtain rfl : contract₂ = contract₁ := (List.cons.inj hc₁).1
  obtain ⟨rsa₁, rest₁, org₁, spec₁, sig₁, bs₁, hl₁, ho₁, hs₁, hsig₁, hhex₁, htok₁, htr₁⟩ :=
    vendJWT_returned_inv env₁ g s₂ vault₂.id (baselineParams g key₂ contract₂) token₁ hj₁
  obtain ⟨rsa₂, rest₂, org₂, spec₂, sig₂, bs₂, hl₂, ho₂, hs₂, hsig₂, hhex₂, htok₂, htr₂⟩ :=
    vendJWT_returned_inv env₂ g s₂ vault₂.id (baselineParams g key₂ contract₂) token₂ hj₂
  rw [hdetails, ho₂] at ho₁
  obtain rfl : org₂ = org₁ := Except.ok.inj ho₁
  refine ⟨token₁, token₂, bs₁, bs₂, ?_, ?_, ⟨_, _, _, _, _, sig₁, ?_, hsig₁, hhex₁⟩,
    ⟨_, _, _, _, _, sig₂, ?_, hsig₂, hhex₂⟩, ?_⟩
  · rw [hr₁]
    simp
  · rw [hr₂]
    simp
  · rw [hr₁, htr₁]
    simp
  · rw [hr₂, htr₂]
    simp
  · rw [htok₁, htok₂, Ne, token_eq_iff g org₂ _ hiat]
    tauto

set_option maxRecDepth 1000000 in
theorem later_invitation_out :
    (inviteParticipant laterEnv scenarioGlobals).out = .returned () := by
  rfl

theorem tokens_differ_iff_witness :
    ∃ token₁ token₂ : String,
      Event.log (invitedLine scenarioGlobals token₁)
        ∈ (inviteParticipant scenarioEnv scenarioGlobals).trace ∧
      Event.log (invitedLine scenarioGlobals token₂)
        ∈ (inviteParticipant laterEnv scenarioGlobals).trace ∧
      token₁ ≠ token₂ := by
  obtain ⟨token₁, token₂, bs₁, bs₂, h₁, h₂, -, -, hiff⟩ :=
    tokens_differ_iff scenarioEnv laterEnv scenarioGlobals (by decide) rfl rfl rfl rfl rfl rfl
      scenario_invitation_out later_invitation_out
  exact ⟨token₁, token₂, h₁, h₂, hiff.2 (Or.inl (by decide))⟩

/-! ## The standard claims -/

theorem mapKeys_mapSet_new (m : Obj) (k : String) (v : JSON) (hk : k ∉ mapKeys m) :
    mapKeys (mapSet m k v) = mapKeys m ++ [k] := by
  induction m with
  | nil => rfl
  | cons kv m ih =>
    obtain ⟨k', v'⟩ := kv
    have h1 : k' ≠ k := fun e => hk (by simp [mapKeys, e])
    have h2 : k ∉ mapKeys m := fun e => hk (by
      simp only [mapKeys, List.map_cons, List.mem_cons]
      exact Or.inr e)
    simp only [mapKeys] at ih ⊢
    simp [mapSet, h1, ih h2]

/-- C12: in every run of `vendJWT` that returns a token, the claim set that is encoded in
the middle segment and signed has `iss` equal to `organization:` followed by the
organization identifier, `aud` equal to the `messaging_endpoint` entry of the metadata of
the organization the lookup returned, and `iat` equal to `time.Now().Unix()`; its keys are
exactly `aud`, `iat`, `iss`, `sub`, `baseline` and the reserved NATS claims key, which is
taken to differ from the other five. -/
theorem vendJWT_standard_claims (env : Env) (g : Globals) (s : Session) (vaultID : String)
    (params : Obj) (token : String)
    (hreserved : g.jwtNatsClaimsKey ∉ ["aud", "iat", "iss", "sub", "baseline"])
    (hret : (vendJWT env g s vaultID params).out = .returned token) :
    ∃ (org : Organization) (claims : Obj) (header middle signature : List Char)
      (tok vid kid msg : String) (opts : Obj),
      env.getOrganizationDetails s.organizationAccessToken g.organizationID [] = .ok org ∧
      splitChars '.' token.data = [header, middle, signature] ∧
      decodeBase64URL middle = some (jsonMarshal (JSON.obj claims)) ∧
      Event.signMessage tok vid kid msg opts ∈ (vendJWT env g s vaultID params).trace ∧
      hexDecodeString msg = some (toBytes ⟨header ++ '.' :: middle⟩) ∧
      mapGet claims "iss" = some (JSON.str ("organization:" ++ g.organizationID)) ∧
      mapGet claims "aud" = some (mapIndex org.metadata "messaging_endpoint") ∧
      mapGet claims "iat" = some (JSON.num env.now) ∧
      mapKeys claims = ["aud", "iat", "iss", "sub", "baseline", g.jwtNatsClaimsKey] := by
  obtain ⟨key, rest, org, spec, sig, bs, -, ho, -, -, -, htok, htrace⟩ :=
    vendJWT_returned_inv env g s vaultID params token hret
  simp only [List.mem_cons, List.mem_singleton, List.not_mem_nil, or_false, not_or] at hreserved
  obtain ⟨haud, hiat, hiss, hsub, hbase⟩ := hreserved
  refine ⟨org, jwtClaims g org env.now params,
    (encodeSegment (jsonMarshal (JSON.obj jwtHeader))).data,
    (encodeSegment (jsonMarshal (JSON.obj (jwtClaims g org env.now params)))).data,
    (encodeSegment bs).data, s.organizationAccessToken, key.vaultID, key.id,
    hexEncodeToString (toBytes (signingInput g org env.now params)), signOptions spec,
    ho, ?_, ?_, ?_, ?_, ?_, ?_, ?_, ?_⟩
  · rw [htok]
    exact token_split g org env.now params bs
  · exact decodeBase64URL_encodeSegment _
  · rw [htrace]
    exact List.Mem.tail _ (List.Mem.tail _ (List.Mem.head _))
  · rw [hexDecodeString_hexEncodeToString, ← signingInput_data]
  · rw [jwtClaims_get _ _ _ _ _ hiss]
    rfl
  · rw [jwtClaims_get _ _ _ _ _ haud]
    rfl
  · rw [jwtClaims_get _ _ _ _ _ hiat]
    rfl
  · simp only [jwtClaims, encodeJWTNatsClaims_eq, mergeNatsClaims]
    rw [mapKeys_mapSet_new]
    · rfl
    · simp [mapKeys, baseClaims, haud, hiat, hiss, hsub, hbase]

theorem vendJWT_standard_claims_witness :
    ∃ (org : Organization) (claims : Obj) (header middle signature : List Char)
      (tok vid kid msg : String) (opts : Obj),
      scenarioEnv.getOrganizationDetails scenarioSession.organizationAccessToken
        scenarioGlobals.organizationID [] = .ok org ∧
      splitChars '.' scenarioToken.data = [header, middle, signature] ∧
      decodeBase64URL middle = some (jsonMarshal (JSON.obj claims)) ∧
      Event.signMessage tok vid kid msg opts ∈
        (vendJWT scenarioEnv scenarioGlobals scenarioSession "vault-1"
          (baselineParams scenarioGlobals scenarioAddressKey scenarioContract)).trace ∧
      hexDecodeString msg = some (toBytes ⟨header ++ '.' :: middle⟩) ∧
      mapGet claims "iss" = some (JSON.str ("organization:" ++ scenarioGlobals.organizationID)) ∧
      mapGet claims "aud" = some (mapIndex org.metadata "messaging_endpoint") ∧
      mapGet claims "iat" = some (JSON.num scenarioEnv.now) ∧
      mapKeys claims =
        ["aud", "iat", "iss", "sub", "baseline", scenarioGlobals.jwtNatsClaimsKey] :=
  vendJWT_standard_claims scenarioEnv scenarioGlobals scenarioSession "vault-1"
    (baselineParams scenarioGlobals scenarioAddressKey scenarioContract) scenarioToken
    (by decide) scenario_token

end ProvideCli
